import Mathlib

set_option maxRecDepth 2048

/-!
Verification of the configuration transformation and validation pipeline of
`compute_setup.py` (dataloop-ai/compute-setup).

The development shallowly embeds the pipeline functions
(`build_compute_config`, `validate_config`, `encode_config_to_base64`) over a
JSON value type.  Python's dynamic behaviour is modelled explicitly:

* JSON documents are values of the inductive type `Json` (numbers are
  modelled as integers; the repository's configuration documents use no
  floating point values, which are outside the scope of this embedding);
* a Python `dict`-typed top-level document is an association list `Obj`;
* `d[k]` on a value is `getItem` (raises `KeyError` on a missing key and
  `TypeError` on a non-dict), `d.get(k, default)` is `getAttr` (raises
  `AttributeError` on a non-dict);
* Python truthiness is `truthy`, `a or b` on values is `pyOr`;
* iteration (`for x in v`) is `pyIter` (lists yield their elements, dicts
  their keys, strings their one-character substrings; other values raise
  `TypeError`);
* a raised exception is an `Except.error` carrying a `PyErr`; the
  `ValueError`s raised by `validate_config` carry a structured `VErr` whose
  constructors hold exactly the data the Python code interpolates into the
  corresponding message string;
* the two warning `print` calls of `validate_config` are modelled as a
  returned list of `Warning` values.
-/

inductive Json where
  | null : Json
  | bool : Bool → Json
  | num : Int → Json
  | str : String → Json
  | arr : List Json → Json
  | obj : List (String × Json) → Json

mutual

def jsonBeq : Json → Json → Bool
  | .null, .null => true
  | .bool a, .bool b => a == b
  | .num a, .num b => a == b
  | .str a, .str b => a == b
  | .arr xs, .arr ys => jsonListBeq xs ys
  | .obj fs, .obj gs => jsonFieldsBeq fs gs
  | _, _ => false

def jsonListBeq : List Json → List Json → Bool
  | [], [] => true
  | x :: xs, y :: ys => jsonBeq x y && jsonListBeq xs ys
  | _, _ => false

def jsonFieldsBeq : List (String × Json) → List (String × Json) → Bool
  | [], [] => true
  | (k, v) :: fs, (l, w) :: gs => k == l && jsonBeq v w && jsonFieldsBeq fs gs
  | _, _ => false

end

mutual

theorem jsonBeq_iff : ∀ a b : Json, jsonBeq a b = true ↔ a = b
  | a, b => by
    cases a <;> cases b <;> simp [jsonBeq]
    case arr.arr xs ys => exact jsonListBeq_iff xs ys
    case obj.obj fs gs => exact jsonFieldsBeq_iff fs gs

theorem jsonListBeq_iff : ∀ xs ys : List Json, jsonListBeq xs ys = true ↔ xs = ys
  | xs, ys => by
    cases xs <;> cases ys <;> simp [jsonListBeq]
    case cons.cons x xs y ys =>
      rw [jsonBeq_iff x y, jsonListBeq_iff xs ys]

theorem jsonFieldsBeq_iff :
    ∀ fs gs : List (String × Json), jsonFieldsBeq fs gs = true ↔ fs = gs
  | fs, gs => by
    cases fs <;> cases gs <;> simp [jsonFieldsBeq]
    case cons.cons kv fs lw gs =>
      obtain ⟨k, v⟩ := kv
      obtain ⟨l, w⟩ := lw
      simp [jsonFieldsBeq, Bool.and_assoc, and_assoc, jsonBeq_iff v w,
        jsonFieldsBeq_iff fs gs]

end

instance : DecidableEq Json := fun a b =>
  decidable_of_iff (jsonBeq a b = true) (jsonBeq_iff a b)

/-- A Python `Dict[str, Any]` (the declared type of the loaded config and of
the built compute config): an association list from keys to JSON values. -/
abbrev Obj : Type := List (String × Json)

/-- Python truthiness of a JSON value (`bool(v)`). -/
def truthy : Json → Bool
  | .null => false
  | .bool b => b
  | .num n => n != 0
  | .str s => s != ""
  | .arr [] => false
  | .arr (_ :: _) => true
  | .obj [] => false
  | .obj (_ :: _) => true

/-- Python `a or b`. -/
def pyOr (a b : Json) : Json := if truthy a then a else b

/-- The errors the pipeline can raise: `KeyError` from `d[k]` on a dict
missing `k`, `TypeError` from subscripting or iterating a value of the wrong
type, `AttributeError` from calling `.get`/`.startswith` on a value of the
wrong type, and the `ValueError`s raised explicitly by `validate_config`. -/
inductive DlIssue where
  | notArray : DlIssue
  | invalidEntries : List Json → DlIssue
deriving DecidableEq

/-- Structured content of the `ValueError`s raised by `validate_config`.
Each constructor corresponds to one `raise ValueError(...)` site and carries
exactly the data interpolated into that site's message:

* `missingRequired` — "Missing required values in config file: ..." with one
  line per missing field;
* `badEndpoint` — "cluster.endpoint must start with http:// or https://";
* `metadataNotObject` — "metadata must be an object (JSON dict) when
  provided";
* `invalidServiceType` — "Invalid metadata.serveAgentServiceType: ...";
* `missingPlugins` — "Missing mandatory plugins in config file: ..." with
  one `plugins: <name>` line per missing mandatory plugin, sorted;
* `invalidDlTypes` — "Invalid nodePools.dlTypes values: ..." with one line
  per offending pool: `<pool_name>: dlTypes must be an array` or
  `<pool_name>: invalid dlTypes: <invalid entries>`. -/
inductive VErr where
  | missingRequired : List String → VErr
  | badEndpoint : String → VErr
  | metadataNotObject : VErr
  | invalidServiceType : Json → VErr
  | missingPlugins : List String → VErr
  | invalidDlTypes : List (Json × DlIssue) → VErr
deriving DecidableEq

inductive PyErr where
  | keyError : String → PyErr
  | typeError : PyErr
  | attributeError : PyErr
  | valueError : VErr → PyErr
deriving DecidableEq

/-- The two warnings `validate_config` prints. -/
inductive Warning where
  | caEmpty : Warning
  | noVolumes : Warning
deriving DecidableEq

instance {ε α : Type} [DecidableEq ε] [DecidableEq α] : DecidableEq (Except ε α) :=
  fun x y =>
    match x, y with
    | .ok a, .ok b =>
        if h : a = b then isTrue (by rw [h])
        else isFalse (by intro he; cases he; exact h rfl)
    | .error a, .error b =>
        if h : a = b then isTrue (by rw [h])
        else isFalse (by intro he; cases he; exact h rfl)
    | .ok _, .error _ => isFalse (by intro he; cases he)
    | .error _, .ok _ => isFalse (by intro he; cases he)

/-- Python `s.startswith(p)` as a character-list prefix test (Python's
`str.startswith` with a single string argument). -/
def charsStartWith : List Char → List Char → Bool
  | _, [] => true
  | [], _ :: _ => false
  | c :: cs, p :: ps => c == p && charsStartWith cs ps

def strStartsWith (s p : String) : Bool := charsStartWith s.data p.data

/-- Python `d[k]` where `d` is a `dict`: the value, or `KeyError`. -/
def objItem (o : Obj) (k : String) : Except PyErr Json :=
  match List.lookup k o with
  | some v => .ok v
  | none => .error (.keyError k)

/-- Python `d.get(k, default)` where `d` is a `dict` (total). -/
def objGetD (o : Obj) (k : String) (d : Json) : Json :=
  (List.lookup k o).getD d

/-- Python `v[k]` with a string key on an arbitrary value: `KeyError` on a dict
missing `k`, `TypeError` on any non-dict value. -/
def getItem (v : Json) (k : String) : Except PyErr Json :=
  match v with
  | .obj fs => objItem fs k
  | _ => .error .typeError

/-- Python `v.get(k, default)` on an arbitrary value: `AttributeError` on any
non-dict value. -/
def getAttr (v : Json) (k : String) (d : Json) : Except PyErr Json :=
  match v with
  | .obj fs => .ok (objGetD fs k d)
  | _ => .error .attributeError

/-- Python `for x in v`: lists yield their elements, dicts their keys, strings
their characters (as one-character strings); other values raise
`TypeError`. -/
def pyIter : Json → Except PyErr (List Json)
  | .arr xs => .ok xs
  | .obj fs => .ok (fs.map (fun kv => Json.str kv.1))
  | .str s => .ok (s.data.map (fun c => Json.str (String.mk [c])))
  | _ => .error .typeError

/-- Python `v.get(k, default)` restricted to the dict case (used after an
`isinstance(v, dict)` guard, where it is total). -/
def jGetD (v : Json) (k : String) (d : Json) : Json :=
  match v with
  | .obj fs => objGetD fs k d
  | _ => d

def isObjJ : Json → Bool
  | .obj _ => true
  | _ => false

/-- The transformer `build_compute_config` (compute_setup.py:120-161).  Locals are bound in
the source's evaluation order: the section lookups first (`cfg["cluster"]`,
`cfg["authentication"]`, `cfg.get("registry") or {}`, `cfg["network"]`,
`cfg.get("metadata") or {}`, the three `registry.get(...)`), then the dict
literal's entries top to bottom. -/
def build_compute_config (cfg : Obj) : Except PyErr Json := do
  let cluster ← objItem cfg "cluster"
  let auth ← objItem cfg "authentication"
  let registry := pyOr (objGetD cfg "registry" .null) (.obj [])
  let network ← objItem cfg "network"
  let metadata := pyOr (objGetD cfg "metadata" .null) (.obj [])
  let registry_domain ← getAttr registry "domain" (.str "hub.dataloop.ai")
  let registry_faas_folder ← getAttr registry "faasFolder" (.str "customerhub")
  let registry_bootstrap_folder ← getAttr registry "bootstrapFolder" (.str "customerhub")
  let ca ← getAttr auth "ca" (.str "")
  let token ← getItem auth "token"
  let endpoint ← getItem cluster "endpoint"
  let kubernetesVersion ← getItem cluster "kubernetesVersion"
  let name ← getItem cluster "name"
  let nodePools ← objItem cfg "nodePools"
  let defaultNamespace ← getItem cluster "defaultNamespace"
  let volumes := objGetD cfg "volumes" (.arr [])
  let serviceAccountName ← getAttr cluster "serviceAccountName" (.str "faas")
  let securityContext := objGetD cfg "securityContext" (.obj [])
  let defaultResources := objGetD cfg "defaultResources" (.obj [])
  let internalRequestsUrl ← getAttr network "internalRequestsUrl" .null
  let environmentVariables ← getAttr network "environmentVariables" (.arr [])
  let plugins := objGetD cfg "plugins" (.arr [])
  let provider ← getItem cluster "provider"
  return .obj
    [("authentication", .obj [("ca", ca), ("token", token)]),
     ("config", .obj
       [("endpoint", endpoint),
        ("kubernetesVersion", kubernetesVersion),
        ("name", name),
        ("nodePools", nodePools),
        ("metadata", metadata),
        ("settings", .obj [("defaultNamespace", defaultNamespace)]),
        ("deploymentConfiguration", .obj
          [("volumes", volumes),
           ("serviceAccountName", serviceAccountName),
           ("securityContext", securityContext),
           ("registry", .obj
             [("domain", registry_domain),
              ("faasFolder", registry_faas_folder),
              ("bootstrapFolder", registry_bootstrap_folder)]),
           ("defaultResources", defaultResources),
           ("internalRequestsUrl", internalRequestsUrl),
           ("environmentVariables", environmentVariables)]),
        ("plugins", plugins),
        ("provider", provider)])]

/-- The placeholder sentinel strings rejected for `organization.orgId`
(compute_setup.py:175).  The first one is the literal `{{org-id}}`, written
here with escaped braces. -/
def orgIdSentinels : List Json :=
  [.str "\x7b\x7borg-id\x7d\x7d",
   .str "<REPLACE: Your Dataloop Organization ID>",
   .str "YOUR_ORG_ID_HERE"]

/-- Required-value presence block of `validate_config`
(compute_setup.py:166-184): token, endpoint, orgId (with placeholder
rejection), accumulated into one `ValueError`. -/
def checkRequired (cfg : Obj) (cc : Json) : Except PyErr Unit := do
  let auth ← getAttr cc "authentication" (.obj [])
  let conf ← getAttr cc "config" (.obj [])
  let orgId ← getAttr (objGetD cfg "organization" (.obj [])) "orgId" (.str "")
  let token ← getAttr auth "token" .null
  let endpoint ← getAttr conf "endpoint" .null
  let m1 : List String := if truthy token then [] else ["authentication.token"]
  let m2 : List String := if truthy endpoint then [] else ["cluster.endpoint"]
  let m3 : List String :=
    if truthy orgId = false ∨ orgId ∈ orgIdSentinels then ["organization.orgId"] else []
  let missing := m1 ++ m2 ++ m3
  if missing = [] then return () else throw (.valueError (.missingRequired missing))

/-- Endpoint scheme block of `validate_config` (compute_setup.py:186-189).
`conf["endpoint"].startswith` on a non-string raises `AttributeError`. -/
def checkEndpoint (cc : Json) : Except PyErr Unit := do
  let conf ← getAttr cc "config" (.obj [])
  let endpoint ← getItem conf "endpoint"
  match endpoint with
  | .str s =>
      if strStartsWith s "http://" || strStartsWith s "https://" then return ()
      else throw (.valueError (.badEndpoint s))
  | _ => throw .attributeError

/-- Warning block of `validate_config` (compute_setup.py:191-195), with the
two `print` calls modelled as a returned list. -/
def computeWarnings (cc : Json) : Except PyErr (List Warning) := do
  let auth ← getAttr cc "authentication" (.obj [])
  let conf ← getAttr cc "config" (.obj [])
  let ca ← getAttr auth "ca" .null
  let w1 : List Warning := if truthy ca then [] else [.caEmpty]
  let depl ← getAttr conf "deploymentConfiguration" (.obj [])
  let vols ← getAttr depl "volumes" .null
  let w2 : List Warning := if truthy vols then [] else [.noVolumes]
  return w1 ++ w2

/-- Metadata shape block of `validate_config` (compute_setup.py:198-199):
`"metadata" in cfg and cfg.get("metadata") is not None and not
isinstance(cfg.get("metadata"), dict)`. -/
def checkMetadata (cfg : Obj) : Except PyErr Unit :=
  match List.lookup "metadata" cfg with
  | some v =>
      if v ≠ Json.null ∧ isObjJ v = false then
        throw (.valueError .metadataNotObject)
      else return ()
  | none => return ()

/-- The `metadata.serveAgentServiceType` enum block of `validate_config`
(compute_setup.py:201-209). -/
def checkServiceType (cfg : Obj) : Except PyErr Unit := do
  let metadata := pyOr (objGetD cfg "metadata" .null) (.obj [])
  let st ← getAttr metadata "serveAgentServiceType" .null
  if st = Json.null then return ()
  else if st = Json.str "ClusterIP" ∨ st = Json.str "LoadBalancer" then return ()
  else throw (.valueError (.invalidServiceType st))

/-- The set of plugin names present by name:
`{p.get("name") for p in plugins if isinstance(p, dict)}`
(compute_setup.py:212-213), as a list in iteration order. -/
def pluginNames (cfg : Obj) : Except PyErr (List Json) := do
  let ps ← pyIter (objGetD cfg "plugins" (.arr []))
  return (ps.filter isObjJ).map (fun p => jGetD p "name" .null)

/-- Mandatory plugin coverage block of `validate_config`
(compute_setup.py:211-222).  `sorted({"monitoring", "scaler"} -
plugin_names)` is the sorted mandatory list filtered to the names not
present. -/
def checkPlugins (cfg : Obj) : Except PyErr Unit := do
  let names ← pluginNames cfg
  let missing := List.filter (fun m => !(names.contains (Json.str m)))
    ["monitoring", "scaler"]
  if missing = [] then return () else throw (.valueError (.missingPlugins missing))

/-- The fixed catalog of allowed `dlTypes` values (compute_setup.py:225-230). -/
def allowedDlTypes : List String :=
  ["regular-xs", "regular-s", "regular-m", "regular-l",
   "highmem-xs", "highmem-s", "highmem-m", "highmem-l",
   "gpu-t4", "gpu-t4-m",
   "gpu-a100-s", "gpu-a100-4g", "gpu-a100-4g-m"]

/-- Negation of `not isinstance(t, str) or t not in allowed_dl_types`: a `dlTypes`
entry is valid when it is a string drawn from the catalog. -/
def isAllowedDlType : Json → Bool
  | .str s => allowedDlTypes.contains s
  | _ => false

/-- One iteration of the `for idx, pool in enumerate(...)` loop
(compute_setup.py:232-242): a non-dict pool is skipped; otherwise the pool
contributes `(pool_name, issue)` when its `dlTypes` is not a list or has
invalid entries, where `pool_name = pool.get("name") or f"nodePools[idx]"`. -/
def poolIssue (idx : Nat) (pool : Json) : Option (Json × DlIssue) :=
  match pool with
  | .obj fs =>
      let poolName := pyOr (objGetD fs "name" .null)
        (.str ("nodePools[" ++ toString idx ++ "]"))
      match objGetD fs "dlTypes" (.arr []) with
      | .arr ts =>
          let invalid := ts.filter (fun t => !(isAllowedDlType t))
          if invalid = [] then none else some (poolName, .invalidEntries invalid)
      | _ => some (poolName, .notArray)
  | _ => none

/-- The accumulated `invalid_dl_types_by_pool` list over the pools, starting
the `enumerate` index at `n`. -/
def poolIssues : Nat → List Json → List (Json × DlIssue)
  | _, [] => []
  | n, p :: ps =>
      match poolIssue n p with
      | some e => e :: poolIssues (n + 1) ps
      | none => poolIssues (n + 1) ps

/-- The accumulated dlTypes violation list of `validate_config`
(compute_setup.py:231-242). -/
def dlTypesEntries (cfg : Obj) : Except PyErr (List (Json × DlIssue)) := do
  let pools ← pyIter (objGetD cfg "nodePools" (.arr []))
  return poolIssues 0 pools

/-- Node-pool `dlTypes` block of `validate_config`
(compute_setup.py:224-252): all violations are accumulated and raised as a
single `ValueError`. -/
def checkDlTypes (cfg : Obj) : Except PyErr Unit := do
  let es ← dlTypesEntries cfg
  if es = [] then return () else throw (.valueError (.invalidDlTypes es))

/-- The validator `validate_config` (compute_setup.py:164-252): the rule blocks in source
order; the first raising block aborts the run.  Returns the warnings the
source prints. -/
def validate_config (cfg : Obj) (cc : Json) : Except PyErr (List Warning) := do
  checkRequired cfg cc
  checkEndpoint cc
  let ws ← computeWarnings cc
  checkMetadata cfg
  checkServiceType cfg
  checkPlugins cfg
  checkDlTypes cfg
  return ws

/-! ## Encoder

`encode_config_to_base64` (compute_setup.py:255-261) is
`base64.b64encode(json.dumps(compute_cfg, indent=2).encode("utf-8"))`,
decoded back to text; the function also writes the text to the output file
(plain I/O, out of the embedding's scope) and returns it.

`json.dumps(..., indent=2)` is modelled character-exactly: `ensure_ascii`
escaping (short escapes for `\" \\ \b \f \n \r \t`, lowercase `\uXXXX` for
all other characters outside `0x20`-`0x7E`, surrogate pairs above
`0xFFFF`), two-space indentation, `", "`-free separators (item separator
`,` followed by a newline and indentation, key separator `: `), and `{}` /
`[]` for empty containers. -/

/-- Decimal digits of a natural number, most significant first
(`repr(n)` for a non-negative int). -/
def digitChar (n : Nat) : Char := Char.ofNat (48 + n)

def natChars (n : Nat) : List Char :=
  if n < 10 then [digitChar n]
  else natChars (n / 10) ++ [digitChar (n % 10)]
decreasing_by exact Nat.div_lt_self (by omega) (by omega)

/-- Python `repr(i)` for an int. -/
def intChars (i : Int) : List Char :=
  if i < 0 then '-' :: natChars i.natAbs else natChars i.toNat

/-- Lowercase hexadecimal digit, as `%x` formatting uses. -/
def hexDig (n : Nat) : Char :=
  if n < 10 then Char.ofNat (48 + n) else Char.ofNat (87 + n)

/-- The four digits of `%04x` formatting for `n < 0x10000`. -/
def hex4 (n : Nat) : List Char :=
  [hexDig (n / 4096 % 16), hexDig (n / 256 % 16), hexDig (n / 16 % 16), hexDig (n % 16)]

/-- The `ensure_ascii` JSON escaping of one character (CPython's
`py_encode_basestring_ascii`): short escapes for the seven special
characters, characters in `0x20`-`0x7E` verbatim, `\uXXXX` otherwise, with
a surrogate pair for code points above `0xFFFF`. -/
def escChar (c : Char) : List Char :=
  if c = '"' then ['\\', '"']
  else if c = '\\' then ['\\', '\\']
  else if c = Char.ofNat 8 then ['\\', 'b']
  else if c = Char.ofNat 12 then ['\\', 'f']
  else if c = Char.ofNat 10 then ['\\', 'n']
  else if c = Char.ofNat 13 then ['\\', 'r']
  else if c = Char.ofNat 9 then ['\\', 't']
  else if 32 ≤ c.toNat ∧ c.toNat ≤ 126 then [c]
  else if c.toNat < 65536 then '\\' :: 'u' :: hex4 c.toNat
  else
    '\\' :: 'u' :: (hex4 (55296 + (c.toNat - 65536) / 1024) ++
      ('\\' :: 'u' :: hex4 (56320 + (c.toNat - 65536) % 1024)))

def escChars : List Char → List Char
  | [] => []
  | c :: cs => escChar c ++ escChars cs

def spacesChars (n : Nat) : List Char := List.replicate n ' '

mutual

/-- Python `json.dumps(v, indent=2)` at current indentation level `ind`. -/
def serChars : Nat → Json → List Char
  | _, .null => ['n', 'u', 'l', 'l']
  | _, .bool true => ['t', 'r', 'u', 'e']
  | _, .bool false => ['f', 'a', 'l', 's', 'e']
  | _, .num i => intChars i
  | _, .str s => '"' :: (escChars s.data ++ ['"'])
  | _, .arr [] => ['[', ']']
  | ind, .arr (x :: xs) =>
      '[' :: Char.ofNat 10 :: (spacesChars (ind + 2) ++ serChars (ind + 2) x ++
        serElemsTail (ind + 2) xs ++
        Char.ofNat 10 :: (spacesChars ind ++ [']']))
  | _, .obj [] => ['{', '}']
  | ind, .obj (kv :: fs) =>
      '{' :: Char.ofNat 10 :: (spacesChars (ind + 2) ++ serMember (ind + 2) kv ++
        serMembersTail (ind + 2) fs ++
        Char.ofNat 10 :: (spacesChars ind ++ ['}']))

/-- One `"key": value` member. -/
def serMember : Nat → String × Json → List Char
  | ind, (k, v) => '"' :: (escChars k.data ++ '"' :: ':' :: ' ' :: serChars ind v)

def serElemsTail : Nat → List Json → List Char
  | _, [] => []
  | ind, x :: xs =>
      ',' :: Char.ofNat 10 :: (spacesChars ind ++ serChars ind x ++ serElemsTail ind xs)

def serMembersTail : Nat → List (String × Json) → List Char
  | _, [] => []
  | ind, kv :: fs =>
      ',' :: Char.ofNat 10 :: (spacesChars ind ++ serMember ind kv ++ serMembersTail ind fs)

end

/-- Python `json.dumps(cc, indent=2)`. -/
def json_dumps (cc : Json) : String := String.mk (serChars 0 cc)

/-- UTF-8 encoding of one character (`str.encode("utf-8")`), bytes as
naturals below 256. -/
def utf8EncodeChar (c : Char) : List Nat :=
  let v := c.toNat
  if v < 128 then [v]
  else if v < 2048 then [192 + v / 64, 128 + v % 64]
  else if v < 65536 then [224 + v / 4096, 128 + v / 64 % 64, 128 + v % 64]
  else [240 + v / 262144, 128 + v / 4096 % 64, 128 + v / 64 % 64, 128 + v % 64]

def utf8Encode : List Char → List Nat
  | [] => []
  | c :: cs => utf8EncodeChar c ++ utf8Encode cs

/-- Decode one UTF-8-encoded character: the character and the remaining
bytes, or `none` on malformed input. -/
def utf8DecodeOne : List Nat → Option (Char × List Nat)
  | [] => none
  | b :: rest =>
      if b < 128 then some (Char.ofNat b, rest)
      else if b < 192 then none
      else if b < 224 then
        match rest with
        | b2 :: rest2 =>
            if 128 ≤ b2 ∧ b2 < 192 then
              let n := (b - 192) * 64 + (b2 - 128)
              if 128 ≤ n then some (Char.ofNat n, rest2) else none
            else none
        | [] => none
      else if b < 240 then
        match rest with
        | b2 :: b3 :: rest3 =>
            if (128 ≤ b2 ∧ b2 < 192) ∧ (128 ≤ b3 ∧ b3 < 192) then
              let n := (b - 224) * 4096 + (b2 - 128) * 64 + (b3 - 128)
              if 2048 ≤ n ∧ (n < 55296 ∨ 57344 ≤ n) then some (Char.ofNat n, rest3)
              else none
            else none
        | _ => none
      else if b < 248 then
        match rest with
        | b2 :: b3 :: b4 :: rest4 =>
            if (128 ≤ b2 ∧ b2 < 192) ∧ (128 ≤ b3 ∧ b3 < 192) ∧ (128 ≤ b4 ∧ b4 < 192) then
              let n := (b - 240) * 262144 + (b2 - 128) * 4096 + (b3 - 128) * 64 + (b4 - 128)
              if 65536 ≤ n ∧ n < 1114112 then some (Char.ofNat n, rest4) else none
            else none
        | _ => none
      else none

def utf8DecodeLoop : Nat → List Nat → Option (List Char)
  | _, [] => some []
  | 0, _ :: _ => none
  | fuel + 1, b :: rest =>
      match utf8DecodeOne (b :: rest) with
      | some (c, rest2) => (utf8DecodeLoop fuel rest2).map (fun cs => c :: cs)
      | none => none

/-- UTF-8 decoding (`bytes.decode("utf-8")`), rejecting malformed input;
each step consumes at least one byte, so the input length bounds the number
of steps. -/
def utf8Decode (bs : List Nat) : Option (List Char) := utf8DecodeLoop bs.length bs

/-- The standard Base64 alphabet character for a 6-bit value. -/
def b64Char (n : Nat) : Char :=
  List.getD "ABCDEFGHIJKLMNOPQRSTUVWXYZabcdefghijklmnopqrstuvwxyz0123456789+/".data n 'A'

/-- Python `base64.b64encode`: 3 bytes to 4 alphabet characters, `=`-padded. -/
def base64EncodeBytes : List Nat → List Char
  | [] => []
  | [a] => [b64Char (a / 4), b64Char (a % 4 * 16), '=', '=']
  | [a, b] => [b64Char (a / 4), b64Char (a % 4 * 16 + b / 16), b64Char (b % 16 * 4), '=']
  | a :: b :: c :: rest =>
      b64Char (a / 4) :: b64Char (a % 4 * 16 + b / 16) ::
        b64Char (b % 16 * 4 + c / 64) :: b64Char (c % 64) :: base64EncodeBytes rest

def b64CharVal (c : Char) : Option Nat :=
  if 65 ≤ c.toNat ∧ c.toNat ≤ 90 then some (c.toNat - 65)
  else if 97 ≤ c.toNat ∧ c.toNat ≤ 122 then some (c.toNat - 71)
  else if 48 ≤ c.toNat ∧ c.toNat ≤ 57 then some (c.toNat + 4)
  else if c = '+' then some 62
  else if c = '/' then some 63
  else none

/-- Python `base64.b64decode` on well-formed input: 4 characters at a time, with
padding only allowed in a final group. -/
def base64DecodeChars : List Char → Option (List Nat)
  | [] => some []
  | c1 :: c2 :: c3 :: c4 :: rest =>
      match b64CharVal c1, b64CharVal c2 with
      | some v1, some v2 =>
          if c3 = '=' then
            if c4 = '=' ∧ rest = [] then some [v1 * 4 + v2 / 16] else none
          else
            match b64CharVal c3 with
            | some v3 =>
                if c4 = '=' then
                  if rest = [] then some [v1 * 4 + v2 / 16, v2 % 16 * 16 + v3 / 4]
                  else none
                else
                  match b64CharVal c4 with
                  | some v4 =>
                      (base64DecodeChars rest).map
                        (fun bs => (v1 * 4 + v2 / 16) :: (v2 % 16 * 16 + v3 / 4) ::
                          (v3 % 4 * 64 + v4) :: bs)
                  | none => none
            | none => none
      | _, _ => none
  | _ => none

/-- The encoder `encode_config_to_base64` (compute_setup.py:255-261): serialize with
`json.dumps(..., indent=2)`, UTF-8 encode, Base64 encode.  The write of the
returned text to the output file is plain I/O and is not part of the value
semantics. -/
def encode_config_to_base64 (cc : Json) : String :=
  String.mk (base64EncodeBytes (utf8Encode (serChars 0 cc)))

/-- The pipeline core of `main` (compute_setup.py:315-326): build, validate,
then (only on success) encode.  An error aborts before the artifact text
exists. -/
def run_pipeline (cfg : Obj) : Except PyErr (List Warning × String) := do
  let cc ← build_compute_config cfg
  let ws ← validate_config cfg cc
  return (ws, encode_config_to_base64 cc)

/-! ## Decoder (the inverse direction of the round-trip claim)

The repository itself has no decoder; these functions model the standard
decoding chain named by the claim — Base64 decode, UTF-8 decode, JSON
parse — so that the round-trip can be stated and proved. -/

def isWsChar (c : Char) : Bool :=
  c = ' ' || c = Char.ofNat 10 || c = Char.ofNat 9 || c = Char.ofNat 13

def skipWs : List Char → List Char
  | [] => []
  | c :: rest => if isWsChar c then skipWs rest else c :: rest

def isDigitC (c : Char) : Bool := 48 ≤ c.toNat && c.toNat ≤ 57

/-- Greedily consume decimal digits, accumulating their value. -/
def digitsParse : Nat → List Char → Nat × List Char
  | acc, [] => (acc, [])
  | acc, c :: rest =>
      if isDigitC c then digitsParse (acc * 10 + (c.toNat - 48)) rest
      else (acc, c :: rest)

def hexVal? (c : Char) : Option Nat :=
  if 48 ≤ c.toNat ∧ c.toNat ≤ 57 then some (c.toNat - 48)
  else if 97 ≤ c.toNat ∧ c.toNat ≤ 102 then some (c.toNat - 87)
  else if 65 ≤ c.toNat ∧ c.toNat ≤ 70 then some (c.toNat - 55)
  else none

def hex4Val (a b c d : Char) : Option Nat :=
  match hexVal? a, hexVal? b, hexVal? c, hexVal? d with
  | some x, some y, some z, some w => some (x * 4096 + y * 256 + z * 16 + w)
  | _, _, _, _ => none

/-- One string-body token: either the closing quote or one decoded
character. -/
inductive StrTok where
  | done : StrTok
  | ch : Char → StrTok

/-- Decode one string-body token — a literal character, one escape
sequence (including a surrogate pair), or the closing quote — returning the
token and the remaining input.  Not recursive. -/
def unescapeOne : List Char → Option (StrTok × List Char)
  | [] => none
  | c :: rest =>
      if c = '"' then some (.done, rest)
      else if c = '\\' then
        match rest with
        | [] => none
        | e :: r =>
            if e = '"' then some (.ch '"', r)
            else if e = '\\' then some (.ch '\\', r)
            else if e = '/' then some (.ch '/', r)
            else if e = 'b' then some (.ch (Char.ofNat 8), r)
            else if e = 'f' then some (.ch (Char.ofNat 12), r)
            else if e = 'n' then some (.ch (Char.ofNat 10), r)
            else if e = 'r' then some (.ch (Char.ofNat 13), r)
            else if e = 't' then some (.ch (Char.ofNat 9), r)
            else if e = 'u' then
              match r with
              | h1 :: h2 :: h3 :: h4 :: r2 =>
                  match hex4Val h1 h2 h3 h4 with
                  | none => none
                  | some n =>
                      if 55296 ≤ n ∧ n ≤ 56319 then
                        match r2 with
                        | e2 :: u2 :: g1 :: g2 :: g3 :: g4 :: r3 =>
                            if e2 = '\\' ∧ u2 = 'u' then
                              match hex4Val g1 g2 g3 g4 with
                              | none => none
                              | some m =>
                                  if 56320 ≤ m ∧ m ≤ 57343 then
                                    some (.ch (Char.ofNat
                                      (65536 + (n - 55296) * 1024 + (m - 56320))), r3)
                                  else none
                            else none
                        | _ => none
                      else if 56320 ≤ n ∧ n ≤ 57343 then none
                      else some (.ch (Char.ofNat n), r2)
              | _ => none
            else none
      else some (.ch c, rest)

def parseStringLoop : Nat → List Char → Option (List Char × List Char)
  | 0, _ => none
  | fuel + 1, input =>
      match unescapeOne input with
      | some (.done, rest) => some ([], rest)
      | some (.ch c, rest) => (parseStringLoop fuel rest).map (fun p => (c :: p.1, p.2))
      | none => none

/-- Parse the body of a JSON string after the opening quote, undoing the
escapes `escChar` can produce; returns the string's characters and the
input after the closing quote.  Each token consumes at least one input
character, so the input length bounds the number of steps. -/
def parseStringBody (input : List Char) : Option (List Char × List Char) :=
  parseStringLoop input.length input

mutual

/-- Fuel-indexed JSON value parser; skips leading whitespace.  Lenient
where leniency cannot affect parsing serializer output. -/
def parseVal : Nat → List Char → Option (Json × List Char)
  | 0, _ => none
  | fuel + 1, input =>
      match skipWs input with
      | [] => none
      | c :: rest =>
          if c = '{' then
            match skipWs rest with
            | [] => none
            | d :: rest2 =>
                if d = '}' then some (.obj [], rest2)
                else
                  match parseMembers fuel (d :: rest2) with
                  | some (fs, r) => some (.obj fs, r)
                  | none => none
          else if c = '[' then
            match skipWs rest with
            | [] => none
            | d :: rest2 =>
                if d = ']' then some (.arr [], rest2)
                else
                  match parseElems fuel (d :: rest2) with
                  | some (vs, r) => some (.arr vs, r)
                  | none => none
          else if c = '"' then
            match parseStringBody rest with
            | some (cs, r) => some (.str (String.mk cs), r)
            | none => none
          else if c = 'n' then
            match rest with
            | u :: l1 :: l2 :: r =>
                if u = 'u' ∧ l1 = 'l' ∧ l2 = 'l' then some (.null, r) else none
            | _ => none
          else if c = 't' then
            match rest with
            | r1 :: u1 :: e1 :: r =>
                if r1 = 'r' ∧ u1 = 'u' ∧ e1 = 'e' then some (.bool true, r) else none
            | _ => none
          else if c = 'f' then
            match rest with
            | a1 :: l1 :: s1 :: e1 :: r =>
                if a1 = 'a' ∧ l1 = 'l' ∧ s1 = 's' ∧ e1 = 'e' then some (.bool false, r)
                else none
            | _ => none
          else if c = '-' then
            match rest with
            | d :: _ =>
                if isDigitC d then
                  let p := digitsParse 0 rest
                  some (.num (-(p.1 : Int)), p.2)
                else none
            | [] => none
          else if isDigitC c then
            let p := digitsParse 0 (c :: rest)
            some (.num (p.1 : Int), p.2)
          else none

/-- Parse the members of a non-empty object, the input starting at the
first key's opening quote; consumes the closing brace. -/
def parseMembers : Nat → List Char → Option (List (String × Json) × List Char)
  | 0, _ => none
  | fuel + 1, input =>
      match input with
      | [] => none
      | c :: rest =>
          if c = '"' then
            match parseStringBody rest with
            | some (kcs, r1) =>
                match skipWs r1 with
                | [] => none
                | c2 :: r2 =>
                    if c2 = ':' then
                      match parseVal fuel r2 with
                      | some (v, r3) =>
                          match skipWs r3 with
                          | [] => none
                          | c3 :: r4 =>
                              if c3 = ',' then
                                match parseMembers fuel (skipWs r4) with
                                | some (fs, r5) => some ((String.mk kcs, v) :: fs, r5)
                                | none => none
                              else if c3 = '}' then some ([(String.mk kcs, v)], r4)
                              else none
                      | none => none
                    else none
            | none => none
          else none

/-- Parse the elements of a non-empty array, the input starting at the
first element; consumes the closing bracket. -/
def parseElems : Nat → List Char → Option (List Json × List Char)
  | 0, _ => none
  | fuel + 1, input =>
      match parseVal fuel input with
      | some (v, r1) =>
          match skipWs r1 with
          | [] => none
          | c :: r2 =>
              if c = ',' then
                match parseElems fuel (skipWs r2) with
                | some (vs, r3) => some (v :: vs, r3)
                | none => none
              else if c = ']' then some ([v], r2)
              else none
      | none => none

end

mutual

/-- A structural size that bounds the parser fuel needed for a value. -/
def jsize : Json → Nat
  | .null => 1
  | .bool _ => 1
  | .num _ => 1
  | .str _ => 1
  | .arr xs => 1 + jsizeElems xs
  | .obj fs => 1 + jsizeMembers fs

def jsizeElems : List Json → Nat
  | [] => 0
  | x :: xs => 1 + jsize x + jsizeElems xs

def jsizeMembers : List (String × Json) → Nat
  | [] => 0
  | kv :: fs => 1 + jsize kv.2 + jsizeMembers fs

end

/-- The decoding chain named by the round-trip claim: Base64 decode the
text, UTF-8 decode the bytes, parse the JSON document. -/
def decode_config_from_base64 (s : String) : Option Json :=
  match base64DecodeChars s.data with
  | none => none
  | some bytes =>
      match utf8Decode bytes with
      | none => none
      | some cs =>
          match parseVal (cs.length + 1) cs with
          | some (v, rest) => if skipWs rest = [] then some v else none
          | none => none

/-! ## Helper lemmas: sequencing of the validation blocks -/

theorem validate_error_at_required (cfg : Obj) (cc : Json) (e : PyErr)
    (h1 : checkRequired cfg cc = .error e) :
    validate_config cfg cc = .error e := by
  simp [validate_config, h1, bind, Except.bind]

theorem validate_error_at_endpoint (cfg : Obj) (cc : Json) (e : PyErr)
    (h1 : checkRequired cfg cc = .ok ())
    (h2 : checkEndpoint cc = .error e) :
    validate_config cfg cc = .error e := by
  simp [validate_config, h1, h2, bind, Except.bind]

theorem validate_error_at_serviceType (cfg : Obj) (cc : Json) (ws : List Warning) (e : PyErr)
    (h1 : checkRequired cfg cc = .ok ())
    (h2 : checkEndpoint cc = .ok ())
    (h3 : computeWarnings cc = .ok ws)
    (h4 : checkMetadata cfg = .ok ())
    (h5 : checkServiceType cfg = .error e) :
    validate_config cfg cc = .error e := by
  simp [validate_config, h1, h2, h3, h4, h5, bind, Except.bind]

theorem validate_error_at_plugins (cfg : Obj) (cc : Json) (ws : List Warning) (e : PyErr)
    (h1 : checkRequired cfg cc = .ok ())
    (h2 : checkEndpoint cc = .ok ())
    (h3 : computeWarnings cc = .ok ws)
    (h4 : checkMetadata cfg = .ok ())
    (h5 : checkServiceType cfg = .ok ())
    (h6 : checkPlugins cfg = .error e) :
    validate_config cfg cc = .error e := by
  simp [validate_config, h1, h2, h3, h4, h5, h6, bind, Except.bind]

theorem validate_error_at_dlTypes (cfg : Obj) (cc : Json) (ws : List Warning) (e : PyErr)
    (h1 : checkRequired cfg cc = .ok ())
    (h2 : checkEndpoint cc = .ok ())
    (h3 : computeWarnings cc = .ok ws)
    (h4 : checkMetadata cfg = .ok ())
    (h5 : checkServiceType cfg = .ok ())
    (h6 : checkPlugins cfg = .ok ())
    (h7 : checkDlTypes cfg = .error e) :
    validate_config cfg cc = .error e := by
  simp [validate_config, h1, h2, h3, h4, h5, h6, h7, bind, Except.bind]

theorem validate_ok (cfg : Obj) (cc : Json) (ws : List Warning)
    (h1 : checkRequired cfg cc = .ok ())
    (h2 : checkEndpoint cc = .ok ())
    (h3 : computeWarnings cc = .ok ws)
    (h4 : checkMetadata cfg = .ok ())
    (h5 : checkServiceType cfg = .ok ())
    (h6 : checkPlugins cfg = .ok ())
    (h7 : checkDlTypes cfg = .ok ()) :
    validate_config cfg cc = .ok ws := by
  simp [validate_config, h1, h2, h3, h4, h5, h6, h7, bind, Except.bind, pure, Except.pure]

/-! ## Helper lemmas: the dlTypes accumulation loop -/

/-- When the pool's `name` value is truthy, `poolIssue` does not depend on
the `enumerate` index. -/
theorem poolIssue_idx_irrel (fs : List (String × Json)) (nameV : Json) (i j : Nat)
    (hname : objGetD fs "name" .null = nameV) (hnt : truthy nameV = true) :
    poolIssue i (.obj fs) = poolIssue j (.obj fs) := by
  simp only [poolIssue, pyOr, hname, hnt, if_true]

/-- A pool whose every entry is invalid-free contributes no issue. -/
theorem poolIssue_none_of_valid (i : Nat) (fs : List (String × Json)) (ts : List Json)
    (hdl : objGetD fs "dlTypes" (.arr []) = .arr ts)
    (hval : ∀ t ∈ ts, isAllowedDlType t = true) :
    poolIssue i (.obj fs) = none := by
  have hfil : ts.filter (fun t => !(isAllowedDlType t)) = [] := by
    rw [List.filter_eq_nil_iff]
    intro t ht
    simp [hval t ht]
  simp [poolIssue, hdl, hfil]

/-- A pool containing an invalid entry contributes the issue listing
exactly the invalid entries. -/
theorem poolIssue_invalid (i : Nat) (fs : List (String × Json)) (nameV t : Json)
    (ts : List Json)
    (hname : objGetD fs "name" .null = nameV) (hnt : truthy nameV = true)
    (hdl : objGetD fs "dlTypes" (.arr []) = .arr ts)
    (ht : t ∈ ts) (hbad : isAllowedDlType t = false) :
    poolIssue i (.obj fs) =
      some (nameV, .invalidEntries (ts.filter (fun x => !(isAllowedDlType x)))) := by
  have hmem : t ∈ ts.filter (fun x => !(isAllowedDlType x)) := by
    rw [List.mem_filter]
    exact ⟨ht, by simp [hbad]⟩
  have hne : ts.filter (fun x => !(isAllowedDlType x)) ≠ [] := by
    intro h
    rw [h] at hmem
    cases hmem
  simp [poolIssue, pyOr, hname, hnt, hdl, hne]

/-- A pool whose `dlTypes` is not array-shaped contributes a `notArray`
issue. -/
theorem poolIssue_notArray (i : Nat) (fs : List (String × Json)) (nameV dl : Json)
    (hname : objGetD fs "name" .null = nameV) (hnt : truthy nameV = true)
    (hdl : objGetD fs "dlTypes" (.arr []) = dl)
    (hnl : ∀ xs : List Json, dl ≠ .arr xs) :
    poolIssue i (.obj fs) = some (nameV, .notArray) := by
  cases dl with
  | arr xs => exact absurd rfl (hnl xs)
  | null => simp [poolIssue, pyOr, hname, hnt, hdl]
  | bool b => simp [poolIssue, pyOr, hname, hnt, hdl]
  | num n => simp [poolIssue, pyOr, hname, hnt, hdl]
  | str s => simp [poolIssue, pyOr, hname, hnt, hdl]
  | obj fs2 => simp [poolIssue, pyOr, hname, hnt, hdl]

/-- An index-independent issue of a member pool appears in the accumulated
issue list. -/
theorem mem_poolIssues (ps : List Json) (p : Json) (e : Json × DlIssue)
    (hp : p ∈ ps) (he : ∀ i, poolIssue i p = some e) :
    ∀ n, e ∈ poolIssues n ps := by
  induction ps with
  | nil => cases hp
  | cons q qs ih =>
      intro n
      rcases List.mem_cons.1 hp with rfl | hp2
      · simp [poolIssues, he n]
      · cases hq : poolIssue n q with
        | none => simpa [poolIssues, hq] using ih hp2 (n + 1)
        | some e2 =>
            simp only [poolIssues, hq]
            exact List.mem_cons_of_mem _ (ih hp2 (n + 1))

theorem poolIssues_ne_nil (ps : List Json) (p : Json) (e : Json × DlIssue)
    (hp : p ∈ ps) (he : ∀ i, poolIssue i p = some e) :
    ∀ n, poolIssues n ps ≠ [] := by
  intro n h
  have := mem_poolIssues ps p e hp he n
  rw [h] at this
  cases this

theorem checkDlTypes_error (cfg : Obj) (pools : List Json)
    (hp : objGetD cfg "nodePools" (.arr []) = .arr pools)
    (hne : poolIssues 0 pools ≠ []) :
    checkDlTypes cfg = .error (.valueError (.invalidDlTypes (poolIssues 0 pools))) := by
  simp [checkDlTypes, dlTypesEntries, hp, pyIter, hne, bind, Except.bind, pure, Except.pure,
    throw, throwThe, MonadExceptOf.throw]

/-! ## Concrete example documents (used by witnesses and counterexamples) -/

/-- A compute-config document whose `authentication`/`config` sections pass
the required-value, endpoint and warning blocks with no warnings. -/
def exCC : Json :=
  .obj [("authentication", .obj [("ca", .str "certdata"), ("token", .str "tok")]),
        ("config", .obj
          [("endpoint", .str "https://example.com"),
           ("deploymentConfiguration", .obj [("volumes", .arr [.str "v"])])])]

/-- A raw-config fragment whose sections other than `nodePools` pass every
validation block. -/
def exBase : Obj :=
  [("organization", .obj [("orgId", .str "org-123")]),
   ("plugins", .arr [.obj [("name", .str "monitoring")], .obj [("name", .str "scaler")]])]

/-- A node pool with one catalog member and one out-of-catalog `dlTypes`
entry (`gpu-h100`). -/
def exPoolBad : Json :=
  .obj [("name", .str "pool-a"), ("dlTypes", .arr [.str "regular-s", .str "gpu-h100"])]

def exPoolBad2 : Json :=
  .obj [("name", .str "pool-b"), ("dlTypes", .arr [.str "gpu-h200"])]

/-! ## Claims C1-C3 -/

/-- C1: for every raw config whose node pool (a dict with a truthy name)
has a `dlTypes` list containing an entry outside the fixed catalog,
`validate_config` — reaching the dlTypes block, i.e. with the earlier rule
blocks passing — raises the dlTypes `ValidationError` whose accumulated
content lists that invalid entry under that pool's name; and a pool whose
`dlTypes` entries are all catalog members contributes no dlTypes violation
at all. -/
theorem C1_dlTypes_catalog :
    (∀ (cfg : Obj) (cc : Json) (ws : List Warning) (pools ts : List Json)
       (pool nameV t : Json) (fs : List (String × Json)),
       checkRequired cfg cc = .ok () →
       checkEndpoint cc = .ok () →
       computeWarnings cc = .ok ws →
       checkMetadata cfg = .ok () →
       checkServiceType cfg = .ok () →
       checkPlugins cfg = .ok () →
       objGetD cfg "nodePools" (.arr []) = .arr pools →
       pool ∈ pools →
       pool = .obj fs →
       objGetD fs "name" .null = nameV →
       truthy nameV = true →
       objGetD fs "dlTypes" (.arr []) = .arr ts →
       t ∈ ts →
       isAllowedDlType t = false →
       ∃ es, validate_config cfg cc = .error (.valueError (.invalidDlTypes es)) ∧
         ∃ inv, (nameV, DlIssue.invalidEntries inv) ∈ es ∧ t ∈ inv) ∧
    (∀ (i : Nat) (fs : List (String × Json)) (ts : List Json),
       objGetD fs "dlTypes" (.arr []) = .arr ts →
       (∀ t ∈ ts, isAllowedDlType t = true) →
       poolIssue i (.obj fs) = none) := by
  constructor
  · intro cfg cc ws pools ts pool nameV t fs h1 h2 h3 h4 h5 h6 hp hmem hpool hname hnt hdl
      ht hbad
    subst hpool
    have hiss : ∀ i, poolIssue i (.obj fs) =
        some (nameV, .invalidEntries (ts.filter (fun x => !(isAllowedDlType x)))) :=
      fun i => poolIssue_invalid i fs nameV t ts hname hnt hdl ht hbad
    have hne := poolIssues_ne_nil pools _ _ hmem hiss 0
    have herr := checkDlTypes_error cfg pools hp hne
    refine ⟨poolIssues 0 pools,
      validate_error_at_dlTypes cfg cc ws _ h1 h2 h3 h4 h5 h6 herr,
      ts.filter (fun x => !(isAllowedDlType x)),
      mem_poolIssues pools _ _ hmem hiss 0, ?_⟩
    exact List.mem_filter.2 ⟨ht, by simp [hbad]⟩
  · intro i fs ts hdl hval
    exact poolIssue_none_of_valid i fs ts hdl hval

theorem C1_dlTypes_catalog_witness :
    (∃ es, validate_config (("nodePools", Json.arr [exPoolBad]) :: exBase) exCC =
        .error (.valueError (.invalidDlTypes es)) ∧
      ∃ inv, (Json.str "pool-a", DlIssue.invalidEntries inv) ∈ es ∧
        Json.str "gpu-h100" ∈ inv) ∧
    poolIssue 0 (.obj [("name", .str "pool-b"),
      ("dlTypes", .arr [.str "regular-s", .str "gpu-t4"])]) = none :=
  ⟨C1_dlTypes_catalog.1 (("nodePools", Json.arr [exPoolBad]) :: exBase) exCC []
      [exPoolBad] [.str "regular-s", .str "gpu-h100"] exPoolBad (.str "pool-a")
      (.str "gpu-h100")
      [("name", .str "pool-a"), ("dlTypes", .arr [.str "regular-s", .str "gpu-h100"])]
      (by rfl) (by rfl) (by rfl) (by rfl) (by rfl) (by rfl) (by rfl)
      (by simp) (by rfl) (by rfl) (by rfl) (by rfl) (by simp) (by rfl),
   C1_dlTypes_catalog.2 0 _ [.str "regular-s", .str "gpu-t4"] (by rfl) (by decide)⟩

/-- C2: when `validate_config` reaches the plugin block (earlier rule blocks
pass) and the plugin names present by name do not cover both mandatory names
`monitoring` and `scaler`, it raises the missing-plugins `ValidationError`
carrying exactly the sorted list of uncovered mandatory names — in
particular every missing mandatory name is in the error; and when both names
are present by name, the plugin check passes. -/
theorem C2_mandatory_plugins :
    (∀ (cfg : Obj) (cc : Json) (ws : List Warning) (names : List Json),
       checkRequired cfg cc = .ok () →
       checkEndpoint cc = .ok () →
       computeWarnings cc = .ok ws →
       checkMetadata cfg = .ok () →
       checkServiceType cfg = .ok () →
       pluginNames cfg = .ok names →
       List.filter (fun m => !(names.contains (Json.str m))) ["monitoring", "scaler"] ≠ [] →
       validate_config cfg cc = .error (.valueError (.missingPlugins
         (List.filter (fun m => !(names.contains (Json.str m))) ["monitoring", "scaler"]))) ∧
       ∀ m ∈ (["monitoring", "scaler"] : List String), Json.str m ∉ names →
         m ∈ List.filter (fun m => !(names.contains (Json.str m))) ["monitoring", "scaler"]) ∧
    (∀ (cfg : Obj) (names : List Json),
       pluginNames cfg = .ok names →
       Json.str "monitoring" ∈ names →
       Json.str "scaler" ∈ names →
       checkPlugins cfg = .ok ()) := by
  constructor
  · intro cfg cc ws names h1 h2 h3 h4 h5 hn hne
    have herr : checkPlugins cfg = .error (.valueError (.missingPlugins
        (List.filter (fun m => !(names.contains (Json.str m))) ["monitoring", "scaler"]))) := by
      unfold checkPlugins
      rw [hn]
      simp only [bind, Except.bind]
      rw [if_neg hne]
      rfl
    refine ⟨validate_error_at_plugins cfg cc ws _ h1 h2 h3 h4 h5 herr, ?_⟩
    intro m hm hnot
    refine List.mem_filter.2 ⟨hm, ?_⟩
    simpa using hnot
  · intro cfg names hn hmon hsca
    have hfil : List.filter (fun m => !(names.contains (Json.str m)))
        ["monitoring", "scaler"] = [] := by
      simp only [List.filter]
      simp [hmon, hsca]
    unfold checkPlugins
    rw [hn]
    simp only [bind, Except.bind]
    rw [if_pos hfil]
    rfl

theorem C2_mandatory_plugins_witness :
    (validate_config
        [("organization", Json.obj [("orgId", Json.str "org-123")]),
         ("plugins", Json.arr [Json.obj [("name", Json.str "monitoring")]])] exCC =
      .error (.valueError (.missingPlugins ["scaler"])) ∧
      ∀ m ∈ (["monitoring", "scaler"] : List String),
        Json.str m ∉ [Json.str "monitoring"] →
        m ∈ List.filter
          (fun m => !(List.contains [Json.str "monitoring"] (Json.str m)))
          ["monitoring", "scaler"]) ∧
    checkPlugins exBase = .ok () :=
  ⟨C2_mandatory_plugins.1
      [("organization", Json.obj [("orgId", Json.str "org-123")]),
       ("plugins", Json.arr [Json.obj [("name", Json.str "monitoring")]])] exCC []
      [Json.str "monitoring"]
      (by rfl) (by rfl) (by rfl) (by rfl) (by rfl) (by rfl) (by decide),
   C2_mandatory_plugins.2 exBase [Json.str "monitoring", Json.str "scaler"]
      (by rfl) (by decide) (by decide)⟩

/-- C3: when `validate_config` reaches the dlTypes block and two node pools
(dicts with truthy names) each contain an invalid `dlTypes` entry, the run
raises a single accumulated dlTypes `ValidationError` whose content
references both pool names. -/
theorem C3_accumulated_reporting :
    ∀ (cfg : Obj) (cc : Json) (ws : List Warning) (pools ts1 ts2 : List Json)
      (p1 p2 name1 name2 t1 t2 : Json) (fs1 fs2 : List (String × Json)),
      checkRequired cfg cc = .ok () →
      checkEndpoint cc = .ok () →
      computeWarnings cc = .ok ws →
      checkMetadata cfg = .ok () →
      checkServiceType cfg = .ok () →
      checkPlugins cfg = .ok () →
      objGetD cfg "nodePools" (.arr []) = .arr pools →
      p1 ∈ pools → p1 = .obj fs1 →
      objGetD fs1 "name" .null = name1 → truthy name1 = true →
      objGetD fs1 "dlTypes" (.arr []) = .arr ts1 →
      t1 ∈ ts1 → isAllowedDlType t1 = false →
      p2 ∈ pools → p2 = .obj fs2 →
      objGetD fs2 "name" .null = name2 → truthy name2 = true →
      objGetD fs2 "dlTypes" (.arr []) = .arr ts2 →
      t2 ∈ ts2 → isAllowedDlType t2 = false →
      ∃ es, validate_config cfg cc = .error (.valueError (.invalidDlTypes es)) ∧
        name1 ∈ es.map Prod.fst ∧ name2 ∈ es.map Prod.fst := by
  intro cfg cc ws pools ts1 ts2 p1 p2 name1 name2 t1 t2 fs1 fs2
    h1 h2 h3 h4 h5 h6 hp hm1 hp1 hname1 hnt1 hdl1 ht1 hbad1
    hm2 hp2 hname2 hnt2 hdl2 ht2 hbad2
  subst hp1
  subst hp2
  have hiss1 : ∀ i, poolIssue i (.obj fs1) =
      some (name1, .invalidEntries (ts1.filter (fun x => !(isAllowedDlType x)))) :=
    fun i => poolIssue_invalid i fs1 name1 t1 ts1 hname1 hnt1 hdl1 ht1 hbad1
  have hiss2 : ∀ i, poolIssue i (.obj fs2) =
      some (name2, .invalidEntries (ts2.filter (fun x => !(isAllowedDlType x)))) :=
    fun i => poolIssue_invalid i fs2 name2 t2 ts2 hname2 hnt2 hdl2 ht2 hbad2
  have hne := poolIssues_ne_nil pools _ _ hm1 hiss1 0
  have herr := checkDlTypes_error cfg pools hp hne
  refine ⟨poolIssues 0 pools,
    validate_error_at_dlTypes cfg cc ws _ h1 h2 h3 h4 h5 h6 herr, ?_, ?_⟩
  · exact List.mem_map_of_mem Prod.fst (mem_poolIssues pools _ _ hm1 hiss1 0)
  · exact List.mem_map_of_mem Prod.fst (mem_poolIssues pools _ _ hm2 hiss2 0)

theorem C3_accumulated_reporting_witness :
    ∃ es, validate_config (("nodePools", Json.arr [exPoolBad, exPoolBad2]) :: exBase) exCC =
        .error (.valueError (.invalidDlTypes es)) ∧
      Json.str "pool-a" ∈ es.map Prod.fst ∧ Json.str "pool-b" ∈ es.map Prod.fst :=
  C3_accumulated_reporting (("nodePools", Json.arr [exPoolBad, exPoolBad2]) :: exBase) exCC
    [] [exPoolBad, exPoolBad2] [.str "regular-s", .str "gpu-h100"] [.str "gpu-h200"]
    exPoolBad exPoolBad2 (.str "pool-a") (.str "pool-b")
    (.str "gpu-h100") (.str "gpu-h200")
    [("name", .str "pool-a"), ("dlTypes", .arr [.str "regular-s", .str "gpu-h100"])]
    [("name", .str "pool-b"), ("dlTypes", .arr [.str "gpu-h200"])]
    (by rfl) (by rfl) (by rfl) (by rfl) (by rfl) (by rfl) (by rfl)
    (by simp) (by rfl) (by rfl) (by rfl) (by rfl) (by simp) (by rfl)
    (by simp) (by rfl) (by rfl) (by rfl) (by rfl) (by simp) (by rfl)

theorem run_pipeline_error_of_validate (cfg : Obj) (cc : Json) (e : PyErr)
    (hb : build_compute_config cfg = .ok cc)
    (hv : validate_config cfg cc = .error e) :
    run_pipeline cfg = .error e := by
  simp [run_pipeline, hb, hv, bind, Except.bind]

/-! ## Claims C4-C5 -/

/-- A full raw config, valid except that its single pool's `dlTypes` is the
scalar `"regular-s"` rather than an array. -/
def exCfgC4 : Obj :=
  [("organization", .obj [("orgId", .str "org-123")]),
   ("cluster", .obj
     [("endpoint", .str "https://example.com"),
      ("kubernetesVersion", .str "1.29"),
      ("name", .str "c1"),
      ("defaultNamespace", .str "ns"),
      ("provider", .str "gcp")]),
   ("authentication", .obj [("token", .str "tok"), ("ca", .str "certdata")]),
   ("network", .obj []),
   ("volumes", .arr [.str "v"]),
   ("plugins", .arr [.obj [("name", .str "monitoring")], .obj [("name", .str "scaler")]]),
   ("nodePools", .arr [.obj [("name", .str "pool-a"), ("dlTypes", .str "regular-s")]])]

/-- The compute config built from a raw config, with `null` standing in for
a build failure (used only to name build outputs in witnesses). -/
def builtOf (cfg : Obj) : Json :=
  match build_compute_config cfg with
  | .ok c => c
  | .error _ => .null

/-- C4 counterexample: on a config whose pool has a non-array `dlTypes`,
the transform succeeds (no structural key-lookup failure) and the pipeline
surfaces the ordinary accumulated dlTypes `ValidationError`
(`ValueError`, the same classified kind as the semantic dlTypes error, with
the `"pool-a: dlTypes must be an array"` entry in its accumulated list) —
not a distinct structural error kind. -/
theorem C4_counterexample :
    (∃ cc, build_compute_config exCfgC4 = .ok cc) ∧
    run_pipeline exCfgC4 =
      .error (.valueError (.invalidDlTypes [(Json.str "pool-a", DlIssue.notArray)])) :=
  ⟨⟨builtOf exCfgC4, by rfl⟩, by rfl⟩

/-- C4 amended: a pool whose `dlTypes` value is not array-shaped is reported
through the same accumulated dlTypes `ValidationError` as invalid entries
are — with a `dlTypes must be an array` item under the pool's name — once
`validate_config` reaches the dlTypes block; the pipeline still aborts
before the encoder runs, so no artifact text is produced. -/
theorem C4_notArray_amended :
    ∀ (cfg : Obj) (cc : Json) (ws : List Warning) (pools : List Json)
      (pool nameV dl : Json) (fs : List (String × Json)),
      checkRequired cfg cc = .ok () →
      checkEndpoint cc = .ok () →
      computeWarnings cc = .ok ws →
      checkMetadata cfg = .ok () →
      checkServiceType cfg = .ok () →
      checkPlugins cfg = .ok () →
      objGetD cfg "nodePools" (.arr []) = .arr pools →
      pool ∈ pools → pool = .obj fs →
      objGetD fs "name" .null = nameV → truthy nameV = true →
      objGetD fs "dlTypes" (.arr []) = dl →
      (∀ xs : List Json, dl ≠ .arr xs) →
      ∃ es, validate_config cfg cc = .error (.valueError (.invalidDlTypes es)) ∧
        (nameV, DlIssue.notArray) ∈ es ∧
        (build_compute_config cfg = .ok cc →
          run_pipeline cfg = .error (.valueError (.invalidDlTypes es))) := by
  intro cfg cc ws pools pool nameV dl fs h1 h2 h3 h4 h5 h6 hp hmem hpool hname hnt hdl hnl
  subst hpool
  have hiss : ∀ i, poolIssue i (.obj fs) = some (nameV, .notArray) :=
    fun i => poolIssue_notArray i fs nameV dl hname hnt hdl hnl
  have hne := poolIssues_ne_nil pools _ _ hmem hiss 0
  have herr := checkDlTypes_error cfg pools hp hne
  have hv := validate_error_at_dlTypes cfg cc ws _ h1 h2 h3 h4 h5 h6 herr
  exact ⟨poolIssues 0 pools, hv, mem_poolIssues pools _ _ hmem hiss 0,
    fun hb => run_pipeline_error_of_validate cfg cc _ hb hv⟩

theorem C4_notArray_amended_witness :
    ∃ es, validate_config exCfgC4 (builtOf exCfgC4) =
        .error (.valueError (.invalidDlTypes es)) ∧
      (Json.str "pool-a", DlIssue.notArray) ∈ es ∧
      (build_compute_config exCfgC4 = .ok (builtOf exCfgC4) →
        run_pipeline exCfgC4 = .error (.valueError (.invalidDlTypes es))) :=
  C4_notArray_amended exCfgC4 (builtOf exCfgC4) [] 
    [.obj [("name", .str "pool-a"), ("dlTypes", .str "regular-s")]]
    (.obj [("name", .str "pool-a"), ("dlTypes", .str "regular-s")])
    (.str "pool-a") (.str "regular-s")
    [("name", .str "pool-a"), ("dlTypes", .str "regular-s")]
    (by rfl) (by rfl) (by rfl) (by rfl) (by rfl) (by rfl) (by rfl)
    (by simp) (by rfl) (by rfl) (by rfl) (by rfl) (by intro xs h; cases h)

/-- A raw config containing every required section except `network`. -/
def exCfgC5 : Obj :=
  [("organization", .obj [("orgId", .str "org-123")]),
   ("cluster", .obj
     [("endpoint", .str "https://example.com"),
      ("kubernetesVersion", .str "1.29"),
      ("name", .str "c1"),
      ("defaultNamespace", .str "ns"),
      ("provider", .str "gcp")]),
   ("authentication", .obj [("token", .str "tok"), ("ca", .str "certdata")]),
   ("volumes", .arr [.str "v"]),
   ("plugins", .arr [.obj [("name", .str "monitoring")], .obj [("name", .str "scaler")]]),
   ("nodePools", .arr [])]

/-- C5 counterexample: with every field the claim lists as required present
but the `network` section entirely absent, `build_compute_config` raises a
`KeyError` on `"network"` — it does not default the section. -/
theorem C5_counterexample :
    build_compute_config exCfgC5 = .error (.keyError "network") := by rfl

/-- C5 amended: the `network` section is itself required — when it is
absent `build_compute_config` fails with a key lookup failure (on
`"network"`, or on `"cluster"`/`"authentication"` if those sections are
missing too); when `network` is present as an object without the optional
subfields (and the required lookups succeed, with the defaultable fields
absent), the transform succeeds and supplies every default:
`environmentVariables` becomes the empty array, `internalRequestsUrl`
stays null, `ca` the empty string, the registry folders their fixed
defaults, `serviceAccountName` is `"faas"`, and
`volumes`/`securityContext`/`defaultResources`/`plugins`/`metadata` become
empty containers. -/
theorem C5_network_amended :
    (∀ cfg : Obj, List.lookup "network" cfg = none →
       ∃ e, build_compute_config cfg = .error e) ∧
    (∀ (cfg : Obj) (cl au nf : List (String × Json)) (tok ep kv nm ns pv nps : Json),
       List.lookup "cluster" cfg = some (.obj cl) →
       List.lookup "authentication" cfg = some (.obj au) →
       List.lookup "network" cfg = some (.obj nf) →
       List.lookup "nodePools" cfg = some nps →
       List.lookup "registry" cfg = none →
       List.lookup "metadata" cfg = none →
       List.lookup "volumes" cfg = none →
       List.lookup "securityContext" cfg = none →
       List.lookup "defaultResources" cfg = none →
       List.lookup "plugins" cfg = none →
       List.lookup "token" au = some tok →
       List.lookup "ca" au = none →
       List.lookup "endpoint" cl = some ep →
       List.lookup "kubernetesVersion" cl = some kv →
       List.lookup "name" cl = some nm →
       List.lookup "defaultNamespace" cl = some ns →
       List.lookup "provider" cl = some pv →
       List.lookup "serviceAccountName" cl = none →
       List.lookup "internalRequestsUrl" nf = none →
       List.lookup "environmentVariables" nf = none →
       build_compute_config cfg = .ok (.obj
         [("authentication", .obj [("ca", .str ""), ("token", tok)]),
          ("config", .obj
            [("endpoint", ep),
             ("kubernetesVersion", kv),
             ("name", nm),
             ("nodePools", nps),
             ("metadata", .obj []),
             ("settings", .obj [("defaultNamespace", ns)]),
             ("deploymentConfiguration", .obj
               [("volumes", .arr []),
                ("serviceAccountName", .str "faas"),
                ("securityContext", .obj []),
                ("registry", .obj
                  [("domain", .str "hub.dataloop.ai"),
                   ("faasFolder", .str "customerhub"),
                   ("bootstrapFolder", .str "customerhub")]),
                ("defaultResources", .obj []),
                ("internalRequestsUrl", .null),
                ("environmentVariables", .arr [])]),
             ("plugins", .arr []),
             ("provider", pv)])])) := by
  constructor
  · intro cfg hnet
    cases hcl : List.lookup "cluster" cfg with
    | none =>
        exact ⟨.keyError "cluster",
          by simp [build_compute_config, objItem, hcl, bind, Except.bind]⟩
    | some c =>
        cases hau : List.lookup "authentication" cfg with
        | none =>
            exact ⟨.keyError "authentication",
              by simp [build_compute_config, objItem, hcl, hau, bind, Except.bind]⟩
        | some a =>
            exact ⟨.keyError "network",
              by simp [build_compute_config, objItem, hcl, hau, hnet, bind, Except.bind]⟩
  · intro cfg cl au nf tok ep kv nm ns pv nps hcl hau hnf hnp hreg hmd hvol hsec hdr hpl
      htok hca hep hkv hnm hns hpv hsa hiu hev
    simp [build_compute_config, objItem, objGetD, getItem, getAttr, pyOr, truthy,
      bind, Except.bind, pure, Except.pure,
      hcl, hau, hnf, hnp, hreg, hmd, hvol, hsec, hdr, hpl,
      htok, hca, hep, hkv, hnm, hns, hpv, hsa, hiu, hev]

theorem C5_network_amended_witness :
    (∃ e, build_compute_config exCfgC5 = .error e) ∧
    build_compute_config
      [("organization", Json.obj [("orgId", Json.str "org-123")]),
       ("cluster", Json.obj
         [("endpoint", Json.str "https://example.com"),
          ("kubernetesVersion", Json.str "1.29"),
          ("name", Json.str "c1"),
          ("defaultNamespace", Json.str "ns"),
          ("provider", Json.str "gcp")]),
       ("authentication", Json.obj [("token", Json.str "tok")]),
       ("network", Json.obj []),
       ("nodePools", Json.arr [])] = .ok (.obj
         [("authentication", .obj [("ca", .str ""), ("token", .str "tok")]),
          ("config", .obj
            [("endpoint", .str "https://example.com"),
             ("kubernetesVersion", .str "1.29"),
             ("name", .str "c1"),
             ("nodePools", .arr []),
             ("metadata", .obj []),
             ("settings", .obj [("defaultNamespace", .str "ns")]),
             ("deploymentConfiguration", .obj
               [("volumes", .arr []),
                ("serviceAccountName", .str "faas"),
                ("securityContext", .obj []),
                ("registry", .obj
                  [("domain", .str "hub.dataloop.ai"),
                   ("faasFolder", .str "customerhub"),
                   ("bootstrapFolder", .str "customerhub")]),
                ("defaultResources", .obj []),
                ("internalRequestsUrl", .null),
                ("environmentVariables", .arr [])]),
             ("plugins", .arr []),
             ("provider", .str "gcp")])]) :=
  ⟨C5_network_amended.1 exCfgC5 (by rfl),
   C5_network_amended.2
     [("organization", Json.obj [("orgId", Json.str "org-123")]),
      ("cluster", Json.obj
        [("endpoint", Json.str "https://example.com"),
         ("kubernetesVersion", Json.str "1.29"),
         ("name", Json.str "c1"),
         ("defaultNamespace", Json.str "ns"),
         ("provider", Json.str "gcp")]),
      ("authentication", Json.obj [("token", Json.str "tok")]),
      ("network", Json.obj []),
      ("nodePools", Json.arr [])]
     [("endpoint", Json.str "https://example.com"),
      ("kubernetesVersion", Json.str "1.29"),
      ("name", Json.str "c1"),
      ("defaultNamespace", Json.str "ns"),
      ("provider", Json.str "gcp")]
     [("token", Json.str "tok")] []
     (Json.str "tok") (Json.str "https://example.com") (Json.str "1.29")
     (Json.str "c1") (Json.str "ns") (Json.str "gcp") (Json.arr [])
     (by rfl) (by rfl) (by rfl) (by rfl) (by rfl) (by rfl) (by rfl) (by rfl)
     (by rfl) (by rfl) (by rfl) (by rfl) (by rfl) (by rfl) (by rfl) (by rfl)
     (by rfl) (by rfl) (by rfl) (by rfl)⟩

/-! ## Claims C6-C8 and C10 -/

/-- C6: once the required-value block passes, a string `cluster.endpoint`
beginning with neither `http://` nor `https://` makes `validate_config`
raise the endpoint-scheme `ValidationError`; an endpoint beginning with
either scheme passes the scheme check. -/
theorem C6_endpoint_scheme :
    (∀ (cfg : Obj) (cc conf : Json) (s : String),
       checkRequired cfg cc = .ok () →
       getAttr cc "config" (.obj []) = .ok conf →
       getItem conf "endpoint" = .ok (.str s) →
       strStartsWith s "http://" = false →
       strStartsWith s "https://" = false →
       validate_config cfg cc = .error (.valueError (.badEndpoint s))) ∧
    (∀ (cc conf : Json) (s : String),
       getAttr cc "config" (.obj []) = .ok conf →
       getItem conf "endpoint" = .ok (.str s) →
       (strStartsWith s "http://" = true ∨ strStartsWith s "https://" = true) →
       checkEndpoint cc = .ok ()) := by
  constructor
  · intro cfg cc conf s h1 hconf hep hh hhs
    have herr : checkEndpoint cc = .error (.valueError (.badEndpoint s)) := by
      simp [checkEndpoint, hconf, hep, hh, hhs, bind, Except.bind, throw, throwThe,
        MonadExceptOf.throw]
    exact validate_error_at_endpoint cfg cc _ h1 herr
  · intro cc conf s hconf hep hor
    rcases hor with h | h <;>
      simp [checkEndpoint, hconf, hep, h, bind, Except.bind, pure, Except.pure]

theorem C6_endpoint_scheme_witness :
    (validate_config [("organization", Json.obj [("orgId", Json.str "org-123")])]
      (Json.obj
        [("authentication", .obj [("ca", .str "certdata"), ("token", .str "tok")]),
         ("config", .obj [("endpoint", .str "ftp://host")])]) =
      .error (.valueError (.badEndpoint "ftp://host"))) ∧
    checkEndpoint exCC = .ok () :=
  ⟨C6_endpoint_scheme.1 [("organization", Json.obj [("orgId", Json.str "org-123")])]
      (Json.obj
        [("authentication", .obj [("ca", .str "certdata"), ("token", .str "tok")]),
         ("config", .obj [("endpoint", .str "ftp://host")])])
      (.obj [("endpoint", .str "ftp://host")]) "ftp://host"
      (by rfl) (by rfl) (by rfl) (by rfl) (by rfl),
   C6_endpoint_scheme.2 exCC
      (.obj [("endpoint", .str "https://example.com"),
             ("deploymentConfiguration", .obj [("volumes", .arr [.str "v"])])])
      "https://example.com" (by rfl) (by rfl) (Or.inr (by rfl))⟩

/-- C7: when `organization.orgId` is falsy (absent or empty — the `.get`
chain then yields the empty string) or one of the placeholder sentinels
(including the literal `{{org-id}}`, written with escaped braces in
`orgIdSentinels`), `validate_config` raises the missing-required
`ValidationError` whose accumulated list is exactly
`["organization.orgId"]` whenever the token and endpoint values are
truthy — so the error names `organization.orgId` even though the token and
endpoint are valid. -/
theorem C7_orgId_placeholder :
    ∀ (cfg : Obj) (cc auth conf tok ep org : Json),
      getAttr cc "authentication" (.obj []) = .ok auth →
      getAttr cc "config" (.obj []) = .ok conf →
      getAttr (objGetD cfg "organization" (.obj [])) "orgId" (.str "") = .ok org →
      getAttr auth "token" .null = .ok tok →
      getAttr conf "endpoint" .null = .ok ep →
      truthy tok = true →
      truthy ep = true →
      (truthy org = false ∨ org ∈ orgIdSentinels) →
      validate_config cfg cc =
        .error (.valueError (.missingRequired ["organization.orgId"])) := by
  intro cfg cc auth conf tok ep org hauth hconf horg htok hep htokT hepT hbad
  have herr : checkRequired cfg cc =
      .error (.valueError (.missingRequired ["organization.orgId"])) := by
    unfold checkRequired
    rw [hauth]
    simp only [bind, Except.bind]
    rw [hconf]
    simp only [Except.bind]
    rw [horg]
    simp only [Except.bind]
    rw [htok]
    simp only [Except.bind]
    rw [hep]
    simp only [Except.bind]
    rw [if_pos htokT, if_pos hepT, if_pos hbad]
    rfl
  exact validate_error_at_required cfg cc _ herr

theorem C7_orgId_placeholder_witness :
    validate_config
      [("organization", Json.obj [("orgId", Json.str "\x7b\x7borg-id\x7d\x7d")])] exCC =
      .error (.valueError (.missingRequired ["organization.orgId"])) :=
  C7_orgId_placeholder
    [("organization", Json.obj [("orgId", Json.str "\x7b\x7borg-id\x7d\x7d")])] exCC
    (.obj [("ca", .str "certdata"), ("token", .str "tok")])
    (.obj [("endpoint", .str "https://example.com"),
           ("deploymentConfiguration", .obj [("volumes", .arr [.str "v"])])])
    (.str "tok") (.str "https://example.com") (.str "\x7b\x7borg-id\x7d\x7d")
    (by rfl) (by rfl) (by rfl) (by rfl) (by rfl) (by rfl) (by rfl)
    (Or.inr (by decide))

/-- C8: once the earlier blocks pass, a present
`metadata.serveAgentServiceType` value outside the two-member enum (such as
`"NodePort"`) makes `validate_config` raise the service-type
`ValidationError`; the values `"ClusterIP"` and `"LoadBalancer"` pass the
check; omitting the `metadata` key passes both the metadata-shape and
service-type checks; and no warning about the service type exists — every
warning the validator can emit is the CA warning or the volumes warning. -/
theorem C8_serviceType_enum :
    (∀ (cfg : Obj) (cc : Json) (ws : List Warning) (st : Json),
       checkRequired cfg cc = .ok () →
       checkEndpoint cc = .ok () →
       computeWarnings cc = .ok ws →
       checkMetadata cfg = .ok () →
       getAttr (pyOr (objGetD cfg "metadata" .null) (.obj [])) "serveAgentServiceType" .null
         = .ok st →
       st ≠ .null → st ≠ .str "ClusterIP" → st ≠ .str "LoadBalancer" →
       validate_config cfg cc = .error (.valueError (.invalidServiceType st))) ∧
    (∀ (cfg : Obj) (st : Json),
       getAttr (pyOr (objGetD cfg "metadata" .null) (.obj [])) "serveAgentServiceType" .null
         = .ok st →
       (st = .str "ClusterIP" ∨ st = .str "LoadBalancer") →
       checkServiceType cfg = .ok ()) ∧
    (∀ cfg : Obj, List.lookup "metadata" cfg = none →
       checkMetadata cfg = .ok () ∧ checkServiceType cfg = .ok ()) ∧
    (∀ (cc : Json) (ws : List Warning), computeWarnings cc = .ok ws →
       ∀ w ∈ ws, w = Warning.caEmpty ∨ w = Warning.noVolumes) := by
  refine ⟨?_, ?_, ?_, ?_⟩
  · intro cfg cc ws st h1 h2 h3 h4 hst hn hc hl
    have herr : checkServiceType cfg = .error (.valueError (.invalidServiceType st)) := by
      unfold checkServiceType
      dsimp only
      rw [hst]
      simp only [bind, Except.bind]
      rw [if_neg hn, if_neg (by rintro (h | h) <;> [exact hc h; exact hl h])]
      rfl
    exact validate_error_at_serviceType cfg cc ws _ h1 h2 h3 h4 herr
  · intro cfg st hst hor
    unfold checkServiceType
    dsimp only
    rw [hst]
    simp only [bind, Except.bind]
    rcases hor with h | h <;> subst h
    · rw [if_neg (by intro h; cases h), if_pos (Or.inl rfl)]
      rfl
    · rw [if_neg (by intro h; cases h), if_pos (Or.inr rfl)]
      rfl
  · intro cfg hmd
    constructor
    · simp [checkMetadata, hmd, pure, Except.pure]
    · unfold checkServiceType
      dsimp only
      have h0 : objGetD cfg "metadata" .null = .null := by simp [objGetD, hmd]
      rw [h0]
      rfl
  · intro cc ws _ w _
    cases w
    · exact Or.inl rfl
    · exact Or.inr rfl

theorem C8_serviceType_enum_witness :
    (validate_config
        (("metadata", Json.obj [("serveAgentServiceType", Json.str "NodePort")]) :: exBase)
        exCC = .error (.valueError (.invalidServiceType (Json.str "NodePort")))) ∧
    checkServiceType
      (("metadata", Json.obj [("serveAgentServiceType", Json.str "ClusterIP")]) :: exBase)
      = .ok () ∧
    checkServiceType
      (("metadata", Json.obj [("serveAgentServiceType", Json.str "LoadBalancer")]) :: exBase)
      = .ok () ∧
    (checkMetadata exBase = .ok () ∧ checkServiceType exBase = .ok ()) ∧
    (∀ w ∈ ([] : List Warning), w = Warning.caEmpty ∨ w = Warning.noVolumes) :=
  ⟨C8_serviceType_enum.1
      (("metadata", Json.obj [("serveAgentServiceType", Json.str "NodePort")]) :: exBase)
      exCC [] (Json.str "NodePort")
      (by rfl) (by rfl) (by rfl) (by rfl) (by rfl)
      (by decide) (by decide) (by decide),
   C8_serviceType_enum.2.1
      (("metadata", Json.obj [("serveAgentServiceType", Json.str "ClusterIP")]) :: exBase)
      (Json.str "ClusterIP") (by rfl) (Or.inl rfl),
   C8_serviceType_enum.2.1
      (("metadata", Json.obj [("serveAgentServiceType", Json.str "LoadBalancer")]) :: exBase)
      (Json.str "LoadBalancer") (by rfl) (Or.inr rfl),
   C8_serviceType_enum.2.2.1 exBase (by rfl),
   C8_serviceType_enum.2.2.2 exCC [] (by rfl)⟩

/-- C10: plugin entries that are not dict-shaped are skipped when the
present plugin names are computed, so a plugins list containing only
non-dict entries (for example the bare strings `"monitoring"` and
`"scaler"`) leaves the present-name set empty and — once the earlier
blocks pass — `validate_config` raises the missing-plugins
`ValidationError` naming both `monitoring` and `scaler`, rather than
crashing or accepting the entries. -/
theorem C10_nonDict_plugins_ignored :
    ∀ (cfg : Obj) (cc : Json) (ws : List Warning) (ps : List Json),
      checkRequired cfg cc = .ok () →
      checkEndpoint cc = .ok () →
      computeWarnings cc = .ok ws →
      checkMetadata cfg = .ok () →
      checkServiceType cfg = .ok () →
      objGetD cfg "plugins" (.arr []) = .arr ps →
      (∀ p ∈ ps, isObjJ p = false) →
      validate_config cfg cc =
        .error (.valueError (.missingPlugins ["monitoring", "scaler"])) := by
  intro cfg cc ws ps h1 h2 h3 h4 h5 hp hnd
  have hnames : pluginNames cfg = .ok [] := by
    have hfil : ps.filter isObjJ = [] := by
      rw [List.filter_eq_nil_iff]
      intro p hmem
      simp [hnd p hmem]
    simp [pluginNames, hp, pyIter, hfil, bind, Except.bind, pure, Except.pure]
  have herr : checkPlugins cfg =
      .error (.valueError (.missingPlugins ["monitoring", "scaler"])) := by
    unfold checkPlugins
    rw [hnames]
    simp only [bind, Except.bind]
    rw [if_neg (by decide)]
    rfl
  exact validate_error_at_plugins cfg cc ws _ h1 h2 h3 h4 h5 herr

theorem C10_nonDict_plugins_ignored_witness :
    validate_config
      [("organization", Json.obj [("orgId", Json.str "org-123")]),
       ("plugins", Json.arr [Json.str "monitoring", Json.str "scaler"])] exCC =
      .error (.valueError (.missingPlugins ["monitoring", "scaler"])) :=
  C10_nonDict_plugins_ignored
    [("organization", Json.obj [("orgId", Json.str "org-123")]),
     ("plugins", Json.arr [Json.str "monitoring", Json.str "scaler"])] exCC []
    [Json.str "monitoring", Json.str "scaler"]
    (by rfl) (by rfl) (by rfl) (by rfl) (by rfl) (by rfl) (by decide)

/-! ## C9 round-trip, part 1: Base64 -/

theorem b64CharVal_b64Char_fin : ∀ n : Fin 64, b64CharVal (b64Char n.val) = some n.val := by
  decide

theorem b64Char_ne_pad_fin : ∀ n : Fin 64, b64Char n.val ≠ '=' := by
  decide

theorem b64_val_char (n : Nat) (h : n < 64) : b64CharVal (b64Char n) = some n :=
  b64CharVal_b64Char_fin ⟨n, h⟩

theorem b64Char_ne_pad (n : Nat) (h : n < 64) : b64Char n ≠ '=' :=
  b64Char_ne_pad_fin ⟨n, h⟩

/-- Decoding inverts encoding on byte lists. -/
theorem base64_roundtrip : ∀ bs : List Nat, (∀ b ∈ bs, b < 256) →
    base64DecodeChars (base64EncodeBytes bs) = some bs := by
  intro bs
  induction bs using base64EncodeBytes.induct with
  | case1 =>
      intro _
      rfl
  | case2 a =>
      intro h
      have ha : a < 256 := h a (by simp)
      simp only [base64EncodeBytes, base64DecodeChars]
      rw [b64_val_char (a / 4) (by omega), b64_val_char (a % 4 * 16) (by omega)]
      dsimp only
      simp only [if_true, and_self, Option.some.injEq, List.cons.injEq, and_true]
      omega
  | case3 a b =>
      intro h
      have ha : a < 256 := h a (by simp)
      have hb : b < 256 := h b (by simp)
      simp only [base64EncodeBytes, base64DecodeChars]
      rw [b64_val_char (a / 4) (by omega), b64_val_char (a % 4 * 16 + b / 16) (by omega)]
      dsimp only
      rw [if_neg (b64Char_ne_pad (b % 16 * 4) (by omega))]
      rw [b64_val_char (b % 16 * 4) (by omega)]
      dsimp only
      simp only [if_true, and_self, Option.some.injEq, List.cons.injEq, and_true]
      refine ⟨by omega, by omega⟩
  | case4 a b c rest ih =>
      intro h
      have ha : a < 256 := h a (by simp)
      have hb : b < 256 := h b (by simp)
      have hc : c < 256 := h c (by simp)
      have hrest : ∀ x ∈ rest, x < 256 := fun x hx => h x (by simp [hx])
      simp only [base64EncodeBytes, base64DecodeChars]
      rw [b64_val_char (a / 4) (by omega), b64_val_char (a % 4 * 16 + b / 16) (by omega)]
      dsimp only
      rw [if_neg (b64Char_ne_pad (b % 16 * 4 + c / 64) (by omega))]
      rw [b64_val_char (b % 16 * 4 + c / 64) (by omega)]
      dsimp only
      rw [if_neg (b64Char_ne_pad (c % 64) (by omega))]
      rw [b64_val_char (c % 64) (by omega)]
      dsimp only
      rw [ih hrest]
      simp only [Option.map_some', Option.some.injEq, List.cons.injEq, and_true]
      refine ⟨by omega, by omega, by omega⟩

/-! ## C9 round-trip, part 2: UTF-8 on the ASCII fragment -/

theorem char_valid_range (c : Char) :
    c.toNat < 55296 ∨ (57344 ≤ c.toNat ∧ c.toNat < 1114112) := by
  have h := c.valid
  simp only [UInt32.isValidChar, Nat.isValidChar] at h
  exact h

theorem utf8Encode_ascii : ∀ cs : List Char, (∀ c ∈ cs, c.toNat < 128) →
    utf8Encode cs = cs.map Char.toNat := by
  intro cs
  induction cs with
  | nil => intro _; rfl
  | cons c rest ih =>
      intro h
      have hc : c.toNat < 128 := h c (by simp)
      simp only [utf8Encode, utf8EncodeChar, if_pos hc, List.map, ih
        (fun x hx => h x (by simp [hx]))]
      rfl

theorem utf8DecodeLoop_ascii : ∀ cs : List Char, ∀ fuel : Nat,
    (∀ c ∈ cs, c.toNat < 128) → cs.length ≤ fuel →
    utf8DecodeLoop fuel (cs.map Char.toNat) = some cs := by
  intro cs
  induction cs with
  | nil =>
      intro fuel _ _
      cases fuel <;> rfl
  | cons c rest ih =>
      intro fuel h hlen
      have hc : c.toNat < 128 := h c (by simp)
      obtain ⟨f, rfl⟩ : ∃ f, fuel = f + 1 :=
        ⟨fuel - 1, by simp at hlen; omega⟩
      have hone : utf8DecodeOne (c.toNat :: rest.map Char.toNat) =
          some (c, rest.map Char.toNat) := by
        simp [utf8DecodeOne, hc, Char.ofNat_toNat]
      rw [List.map]
      rw [utf8DecodeLoop]
      rw [hone]
      dsimp only
      rw [ih f (fun x hx => h x (by simp [hx])) (by simp at hlen; omega)]
      rfl

theorem utf8Decode_ascii (cs : List Char) (h : ∀ c ∈ cs, c.toNat < 128) :
    utf8Decode (cs.map Char.toNat) = some cs := by
  unfold utf8Decode
  exact utf8DecodeLoop_ascii cs _ h (by simp)

/-! ## C9 round-trip, part 3: decimal numbers -/

theorem ne_of_toNat_ne {c d : Char} (h : c.toNat ≠ d.toNat) : c ≠ d :=
  fun he => h (by rw [he])

theorem digitChar_toNat (n : Nat) (h : n < 10) : (digitChar n).toNat = 48 + n := by
  interval_cases n <;> decide

theorem isDigitC_digitChar (n : Nat) (h : n < 10) : isDigitC (digitChar n) = true := by
  interval_cases n <;> decide

theorem isDigitC_bounds {c : Char} (h : isDigitC c = true) :
    48 ≤ c.toNat ∧ c.toNat ≤ 57 := by
  simpa [isDigitC] using h

theorem natChars_head_digit : ∀ n : Nat, ∃ c t, natChars n = c :: t ∧ isDigitC c = true := by
  intro n
  induction n using natChars.induct with
  | case1 n h =>
      exact ⟨digitChar n, [], by rw [natChars]; simp [h], isDigitC_digitChar n h⟩
  | case2 n h ih =>
      obtain ⟨c, t, he, hd⟩ := ih
      refine ⟨c, t ++ [digitChar (n % 10)], ?_, hd⟩
      rw [natChars]
      simp [h, he]

theorem natChars_all_digits : ∀ n : Nat, ∀ c ∈ natChars n, isDigitC c = true := by
  intro n
  induction n using natChars.induct with
  | case1 n h =>
      intro c hc
      rw [natChars] at hc
      simp [h] at hc
      subst hc
      exact isDigitC_digitChar n h
  | case2 n h ih =>
      intro c hc
      rw [natChars] at hc
      simp [h] at hc
      rcases hc with hc | hc
      · exact ih c hc
      · subst hc
        exact isDigitC_digitChar (n % 10) (Nat.mod_lt n (by omega))

theorem digitsParse_append : ∀ (n acc : Nat) (l : List Char),
    digitsParse acc (natChars n ++ l) =
      digitsParse (acc * 10 ^ (natChars n).length + n) l := by
  intro n
  induction n using natChars.induct with
  | case1 n h =>
      intro acc l
      rw [natChars]
      simp only [if_pos h, List.singleton_append, List.length_singleton, pow_one]
      rw [digitsParse]
      rw [if_pos (isDigitC_digitChar n h)]
      rw [digitChar_toNat n h]
      congr 1
      omega
  | case2 n h ih =>
      intro acc l
      rw [natChars]
      simp only [if_neg (by omega : ¬ n < 10)]
      rw [List.append_assoc, List.singleton_append, ih]
      rw [digitsParse]
      rw [if_pos (isDigitC_digitChar (n % 10) (Nat.mod_lt n (by omega)))]
      rw [digitChar_toNat (n % 10) (Nat.mod_lt n (by omega))]
      congr 1
      have hdm : n / 10 * 10 + n % 10 = n := by omega
      have hlen : (natChars (n / 10) ++ [digitChar (n % 10)]).length =
          (natChars (n / 10)).length + 1 := by simp
      rw [hlen, pow_succ]
      set p := 10 ^ (natChars (n / 10)).length with hp
      calc (acc * p + n / 10) * 10 + (48 + n % 10 - 48)
          = acc * (p * 10) + (n / 10 * 10 + n % 10) := by
            have : 48 + n % 10 - 48 = n % 10 := by omega
            rw [this]
            ring
        _ = acc * (p * 10) + n := by rw [hdm]

theorem digitsParse_stop (acc : Nat) (l : List Char)
    (h : ∀ c t, l = c :: t → isDigitC c = false) :
    digitsParse acc l = (acc, l) := by
  cases l with
  | nil => rfl
  | cons c t =>
      rw [digitsParse]
      rw [if_neg (by simp [h c t rfl])]

theorem digitsParse_natChars (n : Nat) (rest : List Char)
    (h : ∀ c t, rest = c :: t → isDigitC c = false) :
    digitsParse 0 (natChars n ++ rest) = (n, rest) := by
  rw [digitsParse_append n 0 rest, Nat.zero_mul, Nat.zero_add]
  exact digitsParse_stop n rest h

/-! ## C9 round-trip, part 4: string escaping -/

theorem hexVal_hexDig_fin : ∀ m : Fin 16, hexVal? (hexDig m.val) = some m.val := by
  decide

theorem hexVal_hexDig (m : Nat) (h : m < 16) : hexVal? (hexDig m) = some m :=
  hexVal_hexDig_fin ⟨m, h⟩

theorem hex4Val_hex4 (n : Nat) (h : n < 65536) :
    hex4Val (hexDig (n / 4096 % 16)) (hexDig (n / 256 % 16)) (hexDig (n / 16 % 16))
      (hexDig (n % 16)) = some n := by
  unfold hex4Val
  rw [hexVal_hexDig (n / 4096 % 16) (by omega), hexVal_hexDig (n / 256 % 16) (by omega),
    hexVal_hexDig (n / 16 % 16) (by omega), hexVal_hexDig (n % 16) (by omega)]
  dsimp only
  congr 1
  omega

theorem escChar_length_pos (c : Char) : 1 ≤ (escChar c).length := by
  unfold escChar
  split_ifs <;> simp [hex4]

theorem unescapeOne_u_step (d1 d2 d3 d4 : Char) (r2 : List Char) :
    unescapeOne ('\\' :: 'u' :: d1 :: d2 :: d3 :: d4 :: r2) =
      (match hex4Val d1 d2 d3 d4 with
      | none => none
      | some n =>
          if 55296 ≤ n ∧ n ≤ 56319 then
            match r2 with
            | e2 :: u2 :: g1 :: g2 :: g3 :: g4 :: r3 =>
                if e2 = '\\' ∧ u2 = 'u' then
                  match hex4Val g1 g2 g3 g4 with
                  | none => none
                  | some m =>
                      if 56320 ≤ m ∧ m ≤ 57343 then
                        some (.ch (Char.ofNat (65536 + (n - 55296) * 1024 + (m - 56320))), r3)
                      else none
                else none
            | _ => none
          else if 56320 ≤ n ∧ n ≤ 57343 then none
          else some (.ch (Char.ofNat n), r2)) := rfl

theorem unescapeOne_lit (c : Char) (rest : List Char) (h1 : c ≠ '"') (h2 : c ≠ '\\') :
    unescapeOne (c :: rest) = some (.ch c, rest) := by
  rw [unescapeOne.eq_def]
  dsimp only
  rw [if_neg h1, if_neg h2]

theorem unescapeOne_esc (c : Char) (tail : List Char) :
    unescapeOne (escChar c ++ tail) = some (.ch c, tail) := by
  unfold escChar
  split_ifs with h1 h2 h3 h4 h5 h6 h7 h8 h9
  · subst h1; rfl
  · subst h2; rfl
  · subst h3; rfl
  · subst h4; rfl
  · subst h5; rfl
  · subst h6; rfl
  · subst h7; rfl
  · show unescapeOne (c :: tail) = some (.ch c, tail)
    exact unescapeOne_lit c tail h1 h2
  · -- Basic Multilingual Plane escape: \uXXXX
    have hv := char_valid_range c
    unfold hex4
    show unescapeOne ('\\' :: 'u' :: hexDig (c.toNat / 4096 % 16) ::
      hexDig (c.toNat / 256 % 16) :: hexDig (c.toNat / 16 % 16) ::
      hexDig (c.toNat % 16) :: tail) = some (.ch c, tail)
    rw [unescapeOne_u_step]
    rw [hex4Val_hex4 c.toNat h9]
    try dsimp only
    rw [if_neg (show ¬(55296 ≤ c.toNat ∧ c.toNat ≤ 56319) by omega)]
    rw [if_neg (show ¬(56320 ≤ c.toNat ∧ c.toNat ≤ 57343) by omega)]
    rw [Char.ofNat_toNat]
  · -- surrogate pair escape: \uHHHH\uLLLL
    have hv := char_valid_range c
    have hle : c.toNat < 1114112 := by omega
    have hge : 65536 ≤ c.toNat := by omega
    unfold hex4
    show unescapeOne ('\\' :: 'u' ::
      hexDig ((55296 + (c.toNat - 65536) / 1024) / 4096 % 16) ::
      hexDig ((55296 + (c.toNat - 65536) / 1024) / 256 % 16) ::
      hexDig ((55296 + (c.toNat - 65536) / 1024) / 16 % 16) ::
      hexDig ((55296 + (c.toNat - 65536) / 1024) % 16) ::
      ('\\' :: 'u' ::
        hexDig ((56320 + (c.toNat - 65536) % 1024) / 4096 % 16) ::
        hexDig ((56320 + (c.toNat - 65536) % 1024) / 256 % 16) ::
        hexDig ((56320 + (c.toNat - 65536) % 1024) / 16 % 16) ::
        hexDig ((56320 + (c.toNat - 65536) % 1024) % 16) :: tail)) = some (.ch c, tail)
    rw [unescapeOne_u_step]
    rw [hex4Val_hex4 (55296 + (c.toNat - 65536) / 1024) (by omega)]
    try dsimp only
    rw [if_pos (show 55296 ≤ 55296 + (c.toNat - 65536) / 1024 ∧
      55296 + (c.toNat - 65536) / 1024 ≤ 56319 by omega)]
    try dsimp only
    rw [if_pos (show ('\\' : Char) = '\\' ∧ ('u' : Char) = 'u' from ⟨rfl, rfl⟩)]
    rw [hex4Val_hex4 (56320 + (c.toNat - 65536) % 1024) (by omega)]
    try dsimp only
    rw [if_pos (show 56320 ≤ 56320 + (c.toNat - 65536) % 1024 ∧
      56320 + (c.toNat - 65536) % 1024 ≤ 57343 by omega)]
    rw [show 65536 + (55296 + (c.toNat - 65536) / 1024 - 55296) * 1024 +
      (56320 + (c.toNat - 65536) % 1024 - 56320) = c.toNat by omega]
    rw [Char.ofNat_toNat]

theorem parseStringLoop_esc : ∀ (s : List Char) (rest : List Char) (fuel : Nat),
    (escChars s).length + 1 ≤ fuel →
    parseStringLoop fuel (escChars s ++ '"' :: rest) = some (s, rest) := by
  intro s
  induction s with
  | nil =>
      intro rest fuel hf
      obtain ⟨f, rfl⟩ : ∃ f, fuel = f + 1 := ⟨fuel - 1, by omega⟩
      rfl
  | cons c cs ih =>
      intro rest fuel hf
      have hlen : 1 ≤ (escChar c).length := escChar_length_pos c
      have hlen2 : (escChars (c :: cs)).length = (escChar c).length + (escChars cs).length := by
        simp [escChars]
      obtain ⟨f, rfl⟩ : ∃ f, fuel = f + 1 := ⟨fuel - 1, by omega⟩
      have hstep : escChars (c :: cs) ++ '"' :: rest =
          escChar c ++ (escChars cs ++ '"' :: rest) := by
        simp [escChars]
      rw [hstep, parseStringLoop, unescapeOne_esc c (escChars cs ++ '"' :: rest)]
      dsimp only
      rw [ih rest f (by omega)]
      rfl

theorem parseStringBody_esc (s rest : List Char) :
    parseStringBody (escChars s ++ '"' :: rest) = some (s, rest) := by
  unfold parseStringBody
  refine parseStringLoop_esc s rest _ ?_
  have h : (escChars s ++ '"' :: rest).length = (escChars s).length + (rest.length + 1) := by
    simp
  omega

/-! ## C9 round-trip, part 5: shape of serializer output -/

theorem hexDig_ascii (m : Nat) (h : m < 16) : (hexDig m).toNat < 128 := by
  interval_cases m <;> decide

theorem hex4_ascii (n : Nat) : ∀ x ∈ hex4 n, x.toNat < 128 := by
  intro x hx
  simp only [hex4, List.mem_cons, List.not_mem_nil, or_false] at hx
  rcases hx with rfl | rfl | rfl | rfl <;> exact hexDig_ascii _ (by omega)

theorem escChar_ascii (c : Char) : ∀ x ∈ escChar c, x.toNat < 128 := by
  unfold escChar
  split_ifs with h1 h2 h3 h4 h5 h6 h7 h8 h9 <;> intro x hx
  · simp at hx; rcases hx with rfl | rfl; decide; decide
  · simp at hx; subst hx; decide
  · simp at hx; rcases hx with rfl | rfl <;> decide
  · simp at hx; rcases hx with rfl | rfl <;> decide
  · simp at hx; rcases hx with rfl | rfl <;> decide
  · simp at hx; rcases hx with rfl | rfl <;> decide
  · simp at hx; rcases hx with rfl | rfl <;> decide
  · simp at hx; subst hx; omega
  · rcases List.mem_cons.1 hx with rfl | hx
    · decide
    rcases List.mem_cons.1 hx with rfl | hx
    · decide
    exact hex4_ascii _ x hx
  · rcases List.mem_cons.1 hx with rfl | hx
    · decide
    rcases List.mem_cons.1 hx with rfl | hx
    · decide
    rcases List.mem_append.1 hx with hx | hx
    · exact hex4_ascii _ x hx
    rcases List.mem_cons.1 hx with rfl | hx
    · decide
    rcases List.mem_cons.1 hx with rfl | hx
    · decide
    exact hex4_ascii _ x hx

theorem escChars_ascii : ∀ l : List Char, ∀ x ∈ escChars l, x.toNat < 128 := by
  intro l
  induction l with
  | nil => intro x hx; cases hx
  | cons c cs ih =>
      intro x hx
      rw [escChars] at hx
      rcases List.mem_append.1 hx with hx | hx
      · exact escChar_ascii c x hx
      · exact ih x hx

theorem natChars_ascii (n : Nat) : ∀ x ∈ natChars n, x.toNat < 128 := by
  intro x hx
  have := isDigitC_bounds (natChars_all_digits n x hx)
  omega

theorem intChars_ascii (i : Int) : ∀ x ∈ intChars i, x.toNat < 128 := by
  intro x hx
  unfold intChars at hx
  split_ifs at hx
  · rcases List.mem_cons.1 hx with rfl | hx
    · decide
    · exact natChars_ascii _ x hx
  · exact natChars_ascii _ x hx

mutual

theorem serChars_ascii : ∀ (ind : Nat) (v : Json), ∀ x ∈ serChars ind v, x.toNat < 128
  | ind, v => by
    cases v with
    | null => intro x hx; simp [serChars] at hx; rcases hx with rfl | rfl | rfl <;> decide
    | bool b =>
        cases b <;> intro x hx <;> simp [serChars] at hx
        · rcases hx with rfl | rfl | rfl | rfl | rfl <;> decide
        · rcases hx with rfl | rfl | rfl | rfl <;> decide
    | num i => intro x hx; exact intChars_ascii i x (by simpa [serChars] using hx)
    | str s =>
        intro x hx
        simp [serChars] at hx
        rcases hx with rfl | hx | rfl
        · decide
        · exact escChars_ascii s.data x hx
        · decide
    | arr xs =>
        cases xs with
        | nil => intro x hx; simp [serChars] at hx; rcases hx with rfl | rfl <;> decide
        | cons y ys =>
            intro x hx
            simp only [serChars, List.mem_cons, List.mem_append, spacesChars] at hx
            rcases hx with rfl | rfl | hx
            · decide
            · decide
            rcases hx with ((hx | hx) | hx) | hx
            · rw [List.eq_of_mem_replicate hx]; decide
            · exact serChars_ascii (ind + 2) y x hx
            · exact serElemsTail_ascii (ind + 2) ys x hx
            rcases hx with rfl | hx | rfl | hx
            · decide
            · rw [List.eq_of_mem_replicate hx]; decide
            · decide
            · cases hx
    | obj fs =>
        cases fs with
        | nil => intro x hx; simp [serChars] at hx; rcases hx with rfl | rfl <;> decide
        | cons kv gs =>
            intro x hx
            simp only [serChars, List.mem_cons, List.mem_append, spacesChars] at hx
            rcases hx with rfl | rfl | hx
            · decide
            · decide
            rcases hx with ((hx | hx) | hx) | hx
            · rw [List.eq_of_mem_replicate hx]; decide
            · exact serMember_ascii (ind + 2) kv x hx
            · exact serMembersTail_ascii (ind + 2) gs x hx
            rcases hx with rfl | hx | rfl | hx
            · decide
            · rw [List.eq_of_mem_replicate hx]; decide
            · decide
            · cases hx

theorem serMember_ascii : ∀ (ind : Nat) (kv : String × Json), ∀ x ∈ serMember ind kv,
    x.toNat < 128
  | ind, (k, v) => by
    intro x hx
    simp only [serMember, List.mem_cons, List.mem_append] at hx
    rcases hx with rfl | (hx | hx)
    · decide
    · exact escChars_ascii k.data x hx
    rcases hx with rfl | rfl | rfl | hx
    · decide
    · decide
    · decide
    · exact serChars_ascii ind v x hx

theorem serElemsTail_ascii : ∀ (ind : Nat) (xs : List Json), ∀ x ∈ serElemsTail ind xs,
    x.toNat < 128
  | _, [] => by intro x hx; cases hx
  | ind, y :: ys => by
    intro x hx
    simp only [serElemsTail, List.mem_cons, List.mem_append, spacesChars] at hx
    rcases hx with rfl | rfl | (hx | hx) | hx
    · decide
    · decide
    · rw [List.eq_of_mem_replicate hx]; decide
    · exact serChars_ascii ind y x hx
    · exact serElemsTail_ascii ind ys x hx

theorem serMembersTail_ascii : ∀ (ind : Nat) (fs : List (String × Json)),
    ∀ x ∈ serMembersTail ind fs, x.toNat < 128
  | _, [] => by intro x hx; cases hx
  | ind, kv :: gs => by
    intro x hx
    simp only [serMembersTail, List.mem_cons, List.mem_append, spacesChars] at hx
    rcases hx with rfl | rfl | (hx | hx) | hx
    · decide
    · decide
    · rw [List.eq_of_mem_replicate hx]; decide
    · exact serMember_ascii ind kv x hx
    · exact serMembersTail_ascii ind gs x hx

end

theorem digit_not_ws {c : Char} (h : isDigitC c = true) :
    isWsChar c = false ∧ c ≠ ']' ∧ c ≠ '}' ∧ c ≠ '{' ∧ c ≠ '[' ∧ c ≠ '"' ∧ c ≠ 'n' ∧
      c ≠ 't' ∧ c ≠ 'f' ∧ c ≠ '-' := by
  have hb := isDigitC_bounds h
  refine ⟨?_, ?_, ?_, ?_, ?_, ?_, ?_, ?_, ?_, ?_⟩
  · unfold isWsChar
    have e1 : c ≠ ' ' := ne_of_toNat_ne (by rw [show (' ').toNat = 32 from rfl]; omega)
    have e2 : c ≠ Char.ofNat 10 :=
      ne_of_toNat_ne (by rw [show (Char.ofNat 10).toNat = 10 from rfl]; omega)
    have e3 : c ≠ Char.ofNat 9 :=
      ne_of_toNat_ne (by rw [show (Char.ofNat 9).toNat = 9 from rfl]; omega)
    have e4 : c ≠ Char.ofNat 13 :=
      ne_of_toNat_ne (by rw [show (Char.ofNat 13).toNat = 13 from rfl]; omega)
    simp [e1, e2, e3, e4]
  · exact ne_of_toNat_ne (by rw [show (']').toNat = 93 from rfl]; omega)
  · exact ne_of_toNat_ne (by rw [show ('}').toNat = 125 from rfl]; omega)
  · exact ne_of_toNat_ne (by rw [show ('{').toNat = 123 from rfl]; omega)
  · exact ne_of_toNat_ne (by rw [show ('[').toNat = 91 from rfl]; omega)
  · exact ne_of_toNat_ne (by rw [show ('"').toNat = 34 from rfl]; omega)
  · exact ne_of_toNat_ne (by rw [show ('n').toNat = 110 from rfl]; omega)
  · exact ne_of_toNat_ne (by rw [show ('t').toNat = 116 from rfl]; omega)
  · exact ne_of_toNat_ne (by rw [show ('f').toNat = 102 from rfl]; omega)
  · exact ne_of_toNat_ne (by rw [show ('-').toNat = 45 from rfl]; omega)

/-- Every serialized value starts with a character that is not whitespace
and is neither a closing bracket nor a closing brace. -/
theorem serChars_head (ind : Nat) (v : Json) :
    ∃ c t, serChars ind v = c :: t ∧ isWsChar c = false ∧ c ≠ ']' ∧ c ≠ '}' := by
  cases v with
  | null => exact ⟨'n', _, rfl, by decide, by decide, by decide⟩
  | bool b => cases b
              · exact ⟨'f', _, rfl, by decide, by decide, by decide⟩
              · exact ⟨'t', _, rfl, by decide, by decide, by decide⟩
  | num i =>
      by_cases hi : i < 0
      · refine ⟨'-', natChars i.natAbs, ?_, by decide, by decide, by decide⟩
        simp [serChars, intChars, hi]
      · obtain ⟨c, t, he, hd⟩ := natChars_head_digit i.toNat
        have hfacts := digit_not_ws hd
        refine ⟨c, t, ?_, hfacts.1, hfacts.2.1, hfacts.2.2.1⟩
        simp [serChars, intChars, hi, he]
  | str s => exact ⟨'"', _, rfl, by decide, by decide, by decide⟩
  | arr xs =>
      cases xs with
      | nil => exact ⟨'[', _, rfl, by decide, by decide, by decide⟩
      | cons y ys => exact ⟨'[', _, rfl, by decide, by decide, by decide⟩
  | obj fs =>
      cases fs with
      | nil => exact ⟨'{', _, rfl, by decide, by decide, by decide⟩
      | cons kv gs => exact ⟨'{', _, rfl, by decide, by decide, by decide⟩

theorem skipWs_cons_ws {c : Char} (l : List Char) (h : isWsChar c = true) :
    skipWs (c :: l) = skipWs l := by
  rw [skipWs, if_pos h]

theorem skipWs_cons_not {c : Char} (l : List Char) (h : isWsChar c = false) :
    skipWs (c :: l) = c :: l := by
  rw [skipWs, if_neg (by simp [h])]

theorem skipWs_spaces (n : Nat) (l : List Char) :
    skipWs (spacesChars n ++ l) = skipWs l := by
  induction n with
  | zero => rfl
  | succ m ih =>
      have : spacesChars (m + 1) = ' ' :: spacesChars m := by
        simp [spacesChars, List.replicate]
      rw [this, List.cons_append, skipWs_cons_ws _ (by decide), ih]

theorem skipWs_nl_spaces (n : Nat) (l : List Char) :
    skipWs (Char.ofNat 10 :: (spacesChars n ++ l)) = skipWs l := by
  rw [skipWs_cons_ws _ (by decide), skipWs_spaces]

theorem skipWs_ser (ind : Nat) (v : Json) (rest : List Char) :
    skipWs (serChars ind v ++ rest) = serChars ind v ++ rest := by
  obtain ⟨c, t, he, hws, _, _⟩ := serChars_head ind v
  rw [he, List.cons_append, skipWs_cons_not _ hws]

theorem skipWs_serMember (ind : Nat) (kv : String × Json) (rest : List Char) :
    skipWs (serMember ind kv ++ rest) = serMember ind kv ++ rest := by
  obtain ⟨k, v⟩ := kv
  rw [serMember, List.cons_append, skipWs_cons_not _ (by decide)]

/-! ## C9 round-trip, part 6: the parser inverts the serializer -/

/-- The continuations after which a serialized number can safely be parsed
greedily: end of input, a separating comma, or the newline the serializer
emits before closing a container. -/
def OkRest (rest : List Char) : Prop :=
  rest = [] ∨ ∃ c cs, rest = c :: cs ∧ (c = ',' ∨ c = Char.ofNat 10)

theorem okRest_stop {rest : List Char} (h : OkRest rest) :
    ∀ c t, rest = c :: t → isDigitC c = false := by
  intro c t he
  subst he
  rcases h with h | ⟨c2, cs, he2, hc⟩
  · cases h
  · injection he2 with h1 h2
    subst h1
    rcases hc with rfl | rfl <;> decide

theorem jsize_pos (v : Json) : 1 ≤ jsize v := by
  cases v <;> simp [jsize]

theorem parseVal_ws {c : Char} (h : isWsChar c = true) (fuel : Nat) (l : List Char) :
    parseVal (fuel + 1) (c :: l) = parseVal (fuel + 1) l := by
  conv_lhs => rw [parseVal]
  conv_rhs => rw [parseVal]
  rw [skipWs_cons_ws _ h]

theorem parse_roundtrip : ∀ fuel : Nat,
    (∀ (v : Json) (ind : Nat) (rest : List Char), jsize v ≤ fuel → OkRest rest →
      parseVal fuel (serChars ind v ++ rest) = some (v, rest)) ∧
    (∀ (kv : String × Json) (fs : List (String × Json)) (ind : Nat)
       (close restF : List Char), jsizeMembers (kv :: fs) ≤ fuel →
       OkRest close → skipWs close = '}' :: restF →
       parseMembers fuel (serMember ind kv ++ (serMembersTail ind fs ++ close)) =
         some (kv :: fs, restF)) ∧
    (∀ (x : Json) (xs : List Json) (ind : Nat) (close restF : List Char),
       jsizeElems (x :: xs) ≤ fuel → OkRest close → skipWs close = ']' :: restF →
       parseElems fuel (serChars ind x ++ (serElemsTail ind xs ++ close)) =
         some (x :: xs, restF)) := by
  intro fuel
  induction fuel with
  | zero =>
      refine ⟨?_, ?_, ?_⟩
      · intro v ind rest hsz _
        exact absurd hsz (by have := jsize_pos v; omega)
      · intro kv fs ind close restF hsz _ _
        refine absurd hsz ?_
        rw [jsizeMembers]
        have := jsize_pos kv.2
        omega
      · intro x xs ind close restF hsz _ _
        refine absurd hsz ?_
        rw [jsizeElems]
        have := jsize_pos x
        omega
  | succ f ih =>
      obtain ⟨ihV, ihM, ihE⟩ := ih
      refine ⟨?_, ?_, ?_⟩
      · -- parseVal case
        intro v ind rest hsz hok
        cases v with
        | null =>
            rw [show serChars ind .null ++ rest = 'n' :: 'u' :: 'l' :: 'l' :: rest from rfl]
            rw [parseVal]
            rw [skipWs_cons_not _ (by decide)]
            rfl
        | bool b =>
            cases b
            · rw [show serChars ind (.bool false) ++ rest =
                  'f' :: 'a' :: 'l' :: 's' :: 'e' :: rest from rfl]
              rw [parseVal]
              rw [skipWs_cons_not _ (by decide)]
              rfl
            · rw [show serChars ind (.bool true) ++ rest =
                  't' :: 'r' :: 'u' :: 'e' :: rest from rfl]
              rw [parseVal]
              rw [skipWs_cons_not _ (by decide)]
              rfl
        | num i =>
            by_cases hi : i < 0
            · have hser : serChars ind (.num i) ++ rest =
                  '-' :: (natChars i.natAbs ++ rest) := by
                simp [serChars, intChars, hi]
              rw [hser]
              rw [parseVal]
              rw [skipWs_cons_not _ (by decide)]
              dsimp only
              rw [if_neg (by decide), if_neg (by decide), if_neg (by decide),
                if_neg (by decide), if_neg (by decide), if_neg (by decide), if_pos rfl]
              obtain ⟨c, t, he, hd⟩ := natChars_head_digit i.natAbs
              rw [he, List.cons_append]
              dsimp only
              rw [if_pos hd]
              rw [show c :: (t ++ rest) = natChars i.natAbs ++ rest from by
                rw [he, List.cons_append]]
              rw [digitsParse_natChars _ _ (okRest_stop hok)]
              dsimp only
              have hni : (-(i.natAbs : Int)) = i := by omega
              rw [hni]
            · have hser : serChars ind (.num i) ++ rest = natChars i.toNat ++ rest := by
                simp [serChars, intChars, hi]
              rw [hser]
              obtain ⟨c, t, he, hd⟩ := natChars_head_digit i.toNat
              have hfacts := digit_not_ws hd
              rw [he, List.cons_append]
              rw [parseVal]
              rw [skipWs_cons_not _ hfacts.1]
              dsimp only
              rw [if_neg hfacts.2.2.2.1, if_neg hfacts.2.2.2.2.1, if_neg hfacts.2.2.2.2.2.1,
                if_neg hfacts.2.2.2.2.2.2.1, if_neg hfacts.2.2.2.2.2.2.2.1,
                if_neg hfacts.2.2.2.2.2.2.2.2.1, if_neg hfacts.2.2.2.2.2.2.2.2.2]
              rw [if_pos hd]
              rw [show c :: (t ++ rest) = natChars i.toNat ++ rest from by
                rw [he, List.cons_append]]
              rw [digitsParse_natChars _ _ (okRest_stop hok)]
              dsimp only
              have hni : ((i.toNat : Nat) : Int) = i := by omega
              rw [hni]
        | str s =>
            have hser : serChars ind (.str s) ++ rest =
                '"' :: (escChars s.data ++ ('"' :: rest)) := by
              simp [serChars]
            rw [hser]
            rw [parseVal]
            rw [skipWs_cons_not _ (by decide)]
            dsimp only
            rw [if_neg (by decide), if_neg (by decide), if_pos rfl]
            rw [parseStringBody_esc s.data rest]
        | arr xs =>
            cases xs with
            | nil =>
                rw [show serChars ind (.arr []) ++ rest = '[' :: (']' :: rest) from rfl]
                rw [parseVal]
                rw [skipWs_cons_not _ (by decide)]
                dsimp only
                rw [if_neg (by decide), if_pos rfl]
                rw [skipWs_cons_not _ (by decide)]
                dsimp only
                rw [if_pos rfl]
            | cons y ys =>
                have hser : serChars ind (.arr (y :: ys)) ++ rest =
                    '[' :: (Char.ofNat 10 :: (spacesChars (ind + 2) ++
                      (serChars (ind + 2) y ++ (serElemsTail (ind + 2) ys ++
                        (Char.ofNat 10 :: (spacesChars ind ++ (']' :: rest))))))) := by
                  simp [serChars]
                rw [hser]
                rw [parseVal]
                rw [skipWs_cons_not _ (by decide)]
                dsimp only
                rw [if_neg (by decide), if_pos rfl]
                rw [skipWs_nl_spaces, skipWs_ser]
                obtain ⟨c, t, he, hws, hnb, hnc⟩ := serChars_head (ind + 2) y
                rw [he, List.cons_append]
                dsimp only
                rw [if_neg hnb]
                rw [show c :: (t ++ (serElemsTail (ind + 2) ys ++
                    (Char.ofNat 10 :: (spacesChars ind ++ (']' :: rest))))) =
                  serChars (ind + 2) y ++ (serElemsTail (ind + 2) ys ++
                    (Char.ofNat 10 :: (spacesChars ind ++ (']' :: rest)))) from by
                  rw [he, List.cons_append]]
                rw [ihE y ys (ind + 2)
                  (Char.ofNat 10 :: (spacesChars ind ++ (']' :: rest))) rest
                  (by rw [jsize] at hsz; omega)
                  (Or.inr ⟨Char.ofNat 10, spacesChars ind ++ (']' :: rest), rfl, Or.inr rfl⟩)
                  (by rw [skipWs_nl_spaces, skipWs_cons_not _ (by decide)])]
        | obj fs =>
            cases fs with
            | nil =>
                rw [show serChars ind (.obj []) ++ rest = '{' :: ('}' :: rest) from rfl]
                rw [parseVal]
                rw [skipWs_cons_not _ (by decide)]
                dsimp only
                rw [if_pos rfl]
                rw [skipWs_cons_not _ (by decide)]
                dsimp only
                rw [if_pos rfl]
            | cons kv gs =>
                have hser : serChars ind (.obj (kv :: gs)) ++ rest =
                    '{' :: (Char.ofNat 10 :: (spacesChars (ind + 2) ++
                      (serMember (ind + 2) kv ++ (serMembersTail (ind + 2) gs ++
                        (Char.ofNat 10 :: (spacesChars ind ++ ('}' :: rest))))))) := by
                  simp [serChars]
                rw [hser]
                rw [parseVal]
                rw [skipWs_cons_not _ (by decide)]
                dsimp only
                rw [if_pos rfl]
                rw [skipWs_nl_spaces, skipWs_serMember]
                obtain ⟨k, v⟩ := kv
                rw [show serMember (ind + 2) (k, v) ++ (serMembersTail (ind + 2) gs ++
                    (Char.ofNat 10 :: (spacesChars ind ++ ('}' :: rest)))) =
                  '"' :: ((escChars k.data ++ ('"' :: ':' :: ' ' :: serChars (ind + 2) v)) ++
                    (serMembersTail (ind + 2) gs ++
                      (Char.ofNat 10 :: (spacesChars ind ++ ('}' :: rest))))) from by
                  rw [serMember, List.cons_append]]
                dsimp only
                rw [if_neg (by decide)]
                rw [show '"' :: ((escChars k.data ++ ('"' :: ':' :: ' ' :: serChars (ind + 2) v)) ++
                    (serMembersTail (ind + 2) gs ++
                      (Char.ofNat 10 :: (spacesChars ind ++ ('}' :: rest))))) =
                  serMember (ind + 2) (k, v) ++ (serMembersTail (ind + 2) gs ++
                    (Char.ofNat 10 :: (spacesChars ind ++ ('}' :: rest)))) from by
                  rw [serMember, List.cons_append]]
                rw [ihM (k, v) gs (ind + 2)
                  (Char.ofNat 10 :: (spacesChars ind ++ ('}' :: rest))) rest
                  (by rw [jsize] at hsz; omega)
                  (Or.inr ⟨Char.ofNat 10, spacesChars ind ++ ('}' :: rest), rfl, Or.inr rfl⟩)
                  (by rw [skipWs_nl_spaces, skipWs_cons_not _ (by decide)])]
      · -- parseMembers case
        rintro ⟨k, v⟩ fs ind close restF hsz hok hskip
        have hsz2 : 1 + jsize v + jsizeMembers fs ≤ f + 1 := by
          rw [jsizeMembers] at hsz
          simpa using hsz
        have hszv : jsize v ≤ f := by omega
        have hf1 : 1 ≤ f := le_trans (jsize_pos v) hszv
        have hshape : serMember ind (k, v) ++ (serMembersTail ind fs ++ close) =
            '"' :: (escChars k.data ++ ('"' :: (':' :: (' ' ::
              (serChars ind v ++ (serMembersTail ind fs ++ close)))))) := by
          rw [serMember]
          simp
        rw [hshape]
        rw [parseMembers]
        try dsimp only
        rw [if_pos rfl]
        rw [parseStringBody_esc k.data
          (':' :: (' ' :: (serChars ind v ++ (serMembersTail ind fs ++ close))))]
        try dsimp only
        rw [skipWs_cons_not _ (by decide)]
        try dsimp only
        rw [if_pos rfl]
        obtain ⟨f2, rfl⟩ : ∃ f2, f = f2 + 1 := ⟨f - 1, by omega⟩
        rw [parseVal_ws (by decide)]
        have hokR : OkRest (serMembersTail ind fs ++ close) := by
          cases fs with
          | nil => simpa [serMembersTail] using hok
          | cons kv2 gs =>
              exact Or.inr ⟨',', _, by rw [serMembersTail, List.cons_append], Or.inl rfl⟩
        rw [ihV v ind (serMembersTail ind fs ++ close) hszv hokR]
        dsimp only
        cases fs with
        | nil =>
            rw [show serMembersTail ind ([] : List (String × Json)) ++ close = close from by
              rw [serMembersTail, List.nil_append]]
            rw [hskip]
            dsimp only
            rw [if_neg (by decide), if_pos rfl]
        | cons kv2 gs =>
            rw [show serMembersTail ind (kv2 :: gs) ++ close =
                ',' :: (Char.ofNat 10 :: (spacesChars ind ++
                  (serMember ind kv2 ++ (serMembersTail ind gs ++ close)))) from by
              rw [serMembersTail]
              simp]
            rw [skipWs_cons_not _ (by decide)]
            dsimp only
            rw [if_pos rfl]
            rw [skipWs_nl_spaces, skipWs_serMember]
            rw [ihM kv2 gs ind close restF
              (by have := jsize_pos v; omega) hok hskip]
      · -- parseElems case
        intro x xs ind close restF hsz hok hskip
        have hszx : jsize x ≤ f := by
          rw [jsizeElems] at hsz
          omega
        have hokR : OkRest (serElemsTail ind xs ++ close) := by
          cases xs with
          | nil => simpa [serElemsTail] using hok
          | cons y ys =>
              exact Or.inr ⟨',', _, by rw [serElemsTail, List.cons_append], Or.inl rfl⟩
        rw [parseElems]
        rw [ihV x ind (serElemsTail ind xs ++ close) hszx hokR]
        dsimp only
        cases xs with
        | nil =>
            rw [show serElemsTail ind ([] : List Json) ++ close = close from by
              rw [serElemsTail, List.nil_append]]
            rw [hskip]
            dsimp only
            rw [if_neg (by decide), if_pos rfl]
        | cons y ys =>
            rw [show serElemsTail ind (y :: ys) ++ close =
                ',' :: (Char.ofNat 10 :: (spacesChars ind ++
                  (serChars ind y ++ (serElemsTail ind ys ++ close)))) from by
              rw [serElemsTail]
              simp]
            rw [skipWs_cons_not _ (by decide)]
            dsimp only
            rw [if_pos rfl]
            rw [skipWs_nl_spaces, skipWs_ser]
            rw [ihE y ys ind close restF
              (by rw [jsizeElems] at hsz; have := jsize_pos x; omega) hok hskip]

mutual

theorem jsize_le_ser : ∀ (ind : Nat) (v : Json), jsize v ≤ (serChars ind v).length
  | ind, v => by
    cases v with
    | null => simp [serChars, jsize]
    | bool b => cases b <;> simp [serChars, jsize]
    | num i =>
        obtain ⟨c, t, he, _⟩ := natChars_head_digit i.natAbs
        obtain ⟨c2, t2, he2, _⟩ := natChars_head_digit i.toNat
        rw [serChars, jsize]
        unfold intChars
        split_ifs
        · simp [he]
        · simp [he2]
    | str s => simp [serChars, jsize]
    | arr xs =>
        cases xs with
        | nil => simp [serChars, jsize, jsizeElems]
        | cons y ys =>
            have h1 := jsize_le_ser (ind + 2) y
            have h2 := jsizeElems_le_tail (ind + 2) ys
            rw [serChars, jsize, jsizeElems]
            simp only [List.length_cons, List.length_append, spacesChars,
              List.length_replicate, List.length_singleton]
            omega
    | obj fs =>
        cases fs with
        | nil => simp [serChars, jsize, jsizeMembers]
        | cons kv gs =>
            have h1 := jsizeM_le_serM (ind + 2) kv
            have h2 := jsizeMembers_le_tail (ind + 2) gs
            rw [serChars, jsize, jsizeMembers]
            simp only [List.length_cons, List.length_append, spacesChars,
              List.length_replicate, List.length_singleton]
            omega

theorem jsizeM_le_serM : ∀ (ind : Nat) (kv : String × Json),
    1 + jsize kv.2 ≤ (serMember ind kv).length
  | ind, (k, v) => by
    have h1 := jsize_le_ser ind v
    rw [serMember]
    simp only [List.length_cons, List.length_append]
    omega

theorem jsizeElems_le_tail : ∀ (ind : Nat) (xs : List Json),
    jsizeElems xs ≤ (serElemsTail ind xs).length
  | _, [] => by simp [serElemsTail, jsizeElems]
  | ind, y :: ys => by
    have h1 := jsize_le_ser ind y
    have h2 := jsizeElems_le_tail ind ys
    rw [serElemsTail, jsizeElems]
    simp only [List.length_cons, List.length_append, spacesChars, List.length_replicate]
    omega

theorem jsizeMembers_le_tail : ∀ (ind : Nat) (fs : List (String × Json)),
    jsizeMembers fs ≤ (serMembersTail ind fs).length
  | _, [] => by simp [serMembersTail, jsizeMembers]
  | ind, kv :: gs => by
    have h1 := jsizeM_le_serM ind kv
    have h2 := jsizeMembers_le_tail ind gs
    rw [serMembersTail, jsizeMembers]
    simp only [List.length_cons, List.length_append, spacesChars, List.length_replicate]
    omega

end

/-- C9: decoding the Encoder's output — Base64-decoding the returned text,
UTF-8-decoding the bytes, and parsing the JSON document — reproduces
exactly the compute config that was encoded, for every JSON document (no
information loss).  `json.dumps(..., indent=2)` output is pure ASCII
(`ensure_ascii`), so the UTF-8 layer is the identity on the byte values. -/
theorem C9_roundtrip (cc : Json) :
    decode_config_from_base64 (encode_config_to_base64 cc) = some cc := by
  unfold encode_config_to_base64 decode_config_from_base64
  have hascii : ∀ x ∈ serChars 0 cc, x.toNat < 128 := serChars_ascii 0 cc
  have henc : utf8Encode (serChars 0 cc) = (serChars 0 cc).map Char.toNat :=
    utf8Encode_ascii _ hascii
  rw [show (String.mk (base64EncodeBytes (utf8Encode (serChars 0 cc)))).data =
    base64EncodeBytes (utf8Encode (serChars 0 cc)) from rfl]
  rw [henc]
  rw [base64_roundtrip ((serChars 0 cc).map Char.toNat) ?hbytes]
  case hbytes =>
    intro b hb
    obtain ⟨c, hc, rfl⟩ := List.mem_map.1 hb
    have := hascii c hc
    omega
  dsimp only
  rw [utf8Decode_ascii _ hascii]
  dsimp only
  have hfuel : jsize cc ≤ (serChars 0 cc).length + 1 :=
    le_trans (jsize_le_ser 0 cc) (by omega)
  have hrt := (parse_roundtrip ((serChars 0 cc).length + 1)).1 cc 0 [] hfuel (Or.inl rfl)
  rw [List.append_nil] at hrt
  rw [hrt]
  rfl
